import Mathlib

/-!
Shallow embedding of the barycentric projection library
(src/barycentric/line.rs, triangle.rs, tetrahedron.rs, octahedron.rs)
over exact rational arithmetic.  Panicking operations (the `unwrap` of a
singular-matrix inversion, the `unwrap` of `Option` values inside
`OctahedronProjector::project`, and `Point3::from_homogeneous`) are
modelled with `Option`; the early returns of the Rust control flow are
modelled with `Except`, whose `error` branch carries the returned value.
-/

set_option maxHeartbeats 1600000

/-- A 3-component point or vector (nalgebra `Point3` / `Vector3`). -/
structure Vec3 where
  x : ℚ
  y : ℚ
  z : ℚ
deriving DecidableEq

def Vec3.sub (a b : Vec3) : Vec3 := ⟨a.x - b.x, a.y - b.y, a.z - b.z⟩

def Vec3.add (a b : Vec3) : Vec3 := ⟨a.x + b.x, a.y + b.y, a.z + b.z⟩

def Vec3.smul (s : ℚ) (a : Vec3) : Vec3 := ⟨s * a.x, s * a.y, s * a.z⟩

def Vec3.dot (a b : Vec3) : ℚ := a.x * b.x + a.y * b.y + a.z * b.z

def Vec3.cross (a b : Vec3) : Vec3 :=
  ⟨a.y * b.z - a.z * b.y, a.z * b.x - a.x * b.z, a.x * b.y - a.y * b.x⟩

def Vec3.normSq (a : Vec3) : ℚ := a.dot a

/-- Barycentric 2-vector (nalgebra `Vector2`). -/
structure BVec2 where
  c0 : ℚ
  c1 : ℚ
deriving DecidableEq

/-- Barycentric 3-vector (nalgebra `Vector3` used as coordinates). -/
structure BVec3 where
  c0 : ℚ
  c1 : ℚ
  c2 : ℚ
deriving DecidableEq

/-- Barycentric 4-vector (nalgebra `Vector4`). -/
structure BVec4 where
  c0 : ℚ
  c1 : ℚ
  c2 : ℚ
  c3 : ℚ
deriving DecidableEq

/-- Barycentric 6-vector (nalgebra `Vector6`). -/
structure BVec6 where
  c0 : ℚ
  c1 : ℚ
  c2 : ℚ
  c3 : ℚ
  c4 : ℚ
  c5 : ℚ
deriving DecidableEq

def BVec3.get (b : BVec3) : Fin 3 → ℚ
  | 0 => b.c0
  | 1 => b.c1
  | 2 => b.c2

def BVec4.get (b : BVec4) : Fin 4 → ℚ
  | 0 => b.c0
  | 1 => b.c1
  | 2 => b.c2
  | 3 => b.c3

def BVec6.get (b : BVec6) : Fin 6 → ℚ
  | 0 => b.c0
  | 1 => b.c1
  | 2 => b.c2
  | 3 => b.c3
  | 4 => b.c4
  | 5 => b.c5

def sum3 (b : BVec3) : ℚ := b.c0 + b.c1 + b.c2

def sum4 (b : BVec4) : ℚ := b.c0 + b.c1 + b.c2 + b.c3

def sum6 (b : BVec6) : ℚ := b.c0 + b.c1 + b.c2 + b.c3 + b.c4 + b.c5

/-- The component minimum of a barycentric 3-vector (nalgebra `.min()`). -/
def min3 (b : BVec3) : ℚ := min (min b.c0 b.c1) b.c2

/-- The component minimum of a barycentric 4-vector (nalgebra `.min()`). -/
def min4 (b : BVec4) : ℚ := min (min (min b.c0 b.c1) b.c2) b.c3

def nonneg2 (b : BVec2) : Prop := 0 ≤ b.c0 ∧ 0 ≤ b.c1

def nonneg3 (b : BVec3) : Prop := 0 ≤ b.c0 ∧ 0 ≤ b.c1 ∧ 0 ≤ b.c2

def nonneg4 (b : BVec4) : Prop := 0 ≤ b.c0 ∧ 0 ≤ b.c1 ∧ 0 ≤ b.c2 ∧ 0 ≤ b.c3

def nonneg6 (b : BVec6) : Prop :=
  0 ≤ b.c0 ∧ 0 ≤ b.c1 ∧ 0 ≤ b.c2 ∧ 0 ≤ b.c3 ∧ 0 ≤ b.c4 ∧ 0 ≤ b.c5

/-- Clamp negative components to 0 (the `if x < zero { zero } else { x }` map
of triangle.rs line 113 and octahedron.rs lines 196-200). -/
def clamp3 (b : BVec3) : BVec3 :=
  ⟨if b.c0 < 0 then 0 else b.c0, if b.c1 < 0 then 0 else b.c1,
   if b.c2 < 0 then 0 else b.c2⟩

/-- Clamp negative components of a 6-vector to 0. -/
def clampNeg6 (b : BVec6) : BVec6 :=
  ⟨if b.c0 < 0 then 0 else b.c0, if b.c1 < 0 then 0 else b.c1,
   if b.c2 < 0 then 0 else b.c2, if b.c3 < 0 then 0 else b.c3,
   if b.c4 < 0 then 0 else b.c4, if b.c5 < 0 then 0 else b.c5⟩

/-- Componentwise division of a 3-vector by a scalar. -/
def bdiv3 (b : BVec3) (s : ℚ) : BVec3 := ⟨b.c0 / s, b.c1 / s, b.c2 / s⟩

/-- A 3x3 matrix with entry `mRC` at row R, column C. -/
structure Mat3 where
  m00 : ℚ
  m01 : ℚ
  m02 : ℚ
  m10 : ℚ
  m11 : ℚ
  m12 : ℚ
  m20 : ℚ
  m21 : ℚ
  m22 : ℚ
deriving DecidableEq

/-- Build a 3x3 matrix from three column vectors. -/
def Mat3.fromCols (a b c : Vec3) : Mat3 :=
  ⟨a.x, b.x, c.x, a.y, b.y, c.y, a.z, b.z, c.z⟩

def Mat3.det (m : Mat3) : ℚ :=
  m.m00 * (m.m11 * m.m22 - m.m12 * m.m21)
    - m.m01 * (m.m10 * m.m22 - m.m12 * m.m20)
    + m.m02 * (m.m10 * m.m21 - m.m11 * m.m20)

/-- The adjugate-over-determinant entries of the 3x3 inverse. -/
def Mat3.invRaw (m : Mat3) : Mat3 :=
  ⟨(m.m11 * m.m22 - m.m12 * m.m21) / m.det,
   (m.m02 * m.m21 - m.m01 * m.m22) / m.det,
   (m.m01 * m.m12 - m.m02 * m.m11) / m.det,
   (m.m12 * m.m20 - m.m10 * m.m22) / m.det,
   (m.m00 * m.m22 - m.m02 * m.m20) / m.det,
   (m.m02 * m.m10 - m.m00 * m.m12) / m.det,
   (m.m10 * m.m21 - m.m11 * m.m20) / m.det,
   (m.m01 * m.m20 - m.m00 * m.m21) / m.det,
   (m.m00 * m.m11 - m.m01 * m.m10) / m.det⟩

/-- Explicit adjugate-over-determinant inverse of a 3x3 matrix, `none` when
the determinant vanishes (nalgebra `try_inverse`). -/
def Mat3.tryInverse (m : Mat3) : Option Mat3 :=
  if m.det = 0 then none else some m.invRaw

def Mat3.mul (a b : Mat3) : Mat3 :=
  ⟨a.m00 * b.m00 + a.m01 * b.m10 + a.m02 * b.m20,
   a.m00 * b.m01 + a.m01 * b.m11 + a.m02 * b.m21,
   a.m00 * b.m02 + a.m01 * b.m12 + a.m02 * b.m22,
   a.m10 * b.m00 + a.m11 * b.m10 + a.m12 * b.m20,
   a.m10 * b.m01 + a.m11 * b.m11 + a.m12 * b.m21,
   a.m10 * b.m02 + a.m11 * b.m12 + a.m12 * b.m22,
   a.m20 * b.m00 + a.m21 * b.m10 + a.m22 * b.m20,
   a.m20 * b.m01 + a.m21 * b.m11 + a.m22 * b.m21,
   a.m20 * b.m02 + a.m21 * b.m12 + a.m22 * b.m22⟩

def Mat3.one : Mat3 := ⟨1, 0, 0, 0, 1, 0, 0, 0, 1⟩

/-- Apply a 3x3 matrix to a barycentric 3-vector, producing a point
(used as `vertices * barycentric` in triangle.rs line 101). -/
def Mat3.mulBary (m : Mat3) (b : BVec3) : Vec3 :=
  ⟨m.m00 * b.c0 + m.m01 * b.c1 + m.m02 * b.c2,
   m.m10 * b.c0 + m.m11 * b.c1 + m.m12 * b.c2,
   m.m20 * b.c0 + m.m21 * b.c1 + m.m22 * b.c2⟩

/-- Apply a 3x3 matrix to a coordinate 3-vector. -/
def Mat3.mulVec (m : Mat3) (b : BVec3) : BVec3 :=
  ⟨m.m00 * b.c0 + m.m01 * b.c1 + m.m02 * b.c2,
   m.m10 * b.c0 + m.m11 * b.c1 + m.m12 * b.c2,
   m.m20 * b.c0 + m.m21 * b.c1 + m.m22 * b.c2⟩

theorem Mat3.tryInverse_mul (m mi : Mat3) (h : m.tryInverse = some mi) :
    Mat3.mul m mi = Mat3.one ∧ Mat3.mul mi m = Mat3.one := by
  unfold Mat3.tryInverse at h
  split at h
  · exact absurd h (by simp)
  · rename_i hdet
    injection h with h
    subst h
    constructor <;>
      (simp only [Mat3.invRaw, Mat3.mul, Mat3.one, Mat3.mk.injEq]
       refine ⟨?_, ?_, ?_, ?_, ?_, ?_, ?_, ?_, ?_⟩ <;>
         (unfold Mat3.det at hdet ⊢; field_simp; ring))

/-- Determinant of a 3x3 array of scalars given row by row. -/
def det3x3 (a b c d e f g h i : ℚ) : ℚ :=
  a * (e * i - f * h) - b * (d * i - f * g) + c * (d * h - e * g)

/-- A 4x4 matrix with entry `aRC` at row R, column C. -/
structure Mat4 where
  a00 : ℚ
  a01 : ℚ
  a02 : ℚ
  a03 : ℚ
  a10 : ℚ
  a11 : ℚ
  a12 : ℚ
  a13 : ℚ
  a20 : ℚ
  a21 : ℚ
  a22 : ℚ
  a23 : ℚ
  a30 : ℚ
  a31 : ℚ
  a32 : ℚ
  a33 : ℚ
deriving DecidableEq

/-- The homogeneous from-barycentric matrix of tetrahedron.rs lines 22-23:
columns are the homogeneous coordinates of the four vertices, last row 1s. -/
def Mat4.fromColsHom (p1 p2 p3 p4 : Vec3) : Mat4 :=
  ⟨p1.x, p2.x, p3.x, p4.x,
   p1.y, p2.y, p3.y, p4.y,
   p1.z, p2.z, p3.z, p4.z,
   1, 1, 1, 1⟩

/-- Signed cofactor of entry (0,0). -/
def Mat4.c00 (m : Mat4) : ℚ := det3x3 m.a11 m.a12 m.a13 m.a21 m.a22 m.a23 m.a31 m.a32 m.a33

def Mat4.c01 (m : Mat4) : ℚ := -det3x3 m.a10 m.a12 m.a13 m.a20 m.a22 m.a23 m.a30 m.a32 m.a33

def Mat4.c02 (m : Mat4) : ℚ := det3x3 m.a10 m.a11 m.a13 m.a20 m.a21 m.a23 m.a30 m.a31 m.a33

def Mat4.c03 (m : Mat4) : ℚ := -det3x3 m.a10 m.a11 m.a12 m.a20 m.a21 m.a22 m.a30 m.a31 m.a32

def Mat4.c10 (m : Mat4) : ℚ := -det3x3 m.a01 m.a02 m.a03 m.a21 m.a22 m.a23 m.a31 m.a32 m.a33

def Mat4.c11 (m : Mat4) : ℚ := det3x3 m.a00 m.a02 m.a03 m.a20 m.a22 m.a23 m.a30 m.a32 m.a33

def Mat4.c12 (m : Mat4) : ℚ := -det3x3 m.a00 m.a01 m.a03 m.a20 m.a21 m.a23 m.a30 m.a31 m.a33

def Mat4.c13 (m : Mat4) : ℚ := det3x3 m.a00 m.a01 m.a02 m.a20 m.a21 m.a22 m.a30 m.a31 m.a32

def Mat4.c20 (m : Mat4) : ℚ := det3x3 m.a01 m.a02 m.a03 m.a11 m.a12 m.a13 m.a31 m.a32 m.a33

def Mat4.c21 (m : Mat4) : ℚ := -det3x3 m.a00 m.a02 m.a03 m.a10 m.a12 m.a13 m.a30 m.a32 m.a33

def Mat4.c22 (m : Mat4) : ℚ := det3x3 m.a00 m.a01 m.a03 m.a10 m.a11 m.a13 m.a30 m.a31 m.a33

def Mat4.c23 (m : Mat4) : ℚ := -det3x3 m.a00 m.a01 m.a02 m.a10 m.a11 m.a12 m.a30 m.a31 m.a32

def Mat4.c30 (m : Mat4) : ℚ := -det3x3 m.a01 m.a02 m.a03 m.a11 m.a12 m.a13 m.a21 m.a22 m.a23

def Mat4.c31 (m : Mat4) : ℚ := det3x3 m.a00 m.a02 m.a03 m.a10 m.a12 m.a13 m.a20 m.a22 m.a23

def Mat4.c32 (m : Mat4) : ℚ := -det3x3 m.a00 m.a01 m.a03 m.a10 m.a11 m.a13 m.a20 m.a21 m.a23

def Mat4.c33 (m : Mat4) : ℚ := det3x3 m.a00 m.a01 m.a02 m.a10 m.a11 m.a12 m.a20 m.a21 m.a22

def Mat4.det (m : Mat4) : ℚ :=
  m.a00 * m.c00 + m.a01 * m.c01 + m.a02 * m.c02 + m.a03 * m.c03

/-- The adjugate-over-determinant entries of the 4x4 inverse. -/
def Mat4.invRaw (m : Mat4) : Mat4 :=
  ⟨m.c00 / m.det, m.c10 / m.det, m.c20 / m.det, m.c30 / m.det,
   m.c01 / m.det, m.c11 / m.det, m.c21 / m.det, m.c31 / m.det,
   m.c02 / m.det, m.c12 / m.det, m.c22 / m.det, m.c32 / m.det,
   m.c03 / m.det, m.c13 / m.det, m.c23 / m.det, m.c33 / m.det⟩

/-- Explicit adjugate-over-determinant inverse of a 4x4 matrix, `none` when
the determinant vanishes (nalgebra `try_inverse`). -/
def Mat4.tryInverse (m : Mat4) : Option Mat4 :=
  if m.det = 0 then none else some m.invRaw

def Mat4.mul (a b : Mat4) : Mat4 :=
  ⟨a.a00 * b.a00 + a.a01 * b.a10 + a.a02 * b.a20 + a.a03 * b.a30,
   a.a00 * b.a01 + a.a01 * b.a11 + a.a02 * b.a21 + a.a03 * b.a31,
   a.a00 * b.a02 + a.a01 * b.a12 + a.a02 * b.a22 + a.a03 * b.a32,
   a.a00 * b.a03 + a.a01 * b.a13 + a.a02 * b.a23 + a.a03 * b.a33,
   a.a10 * b.a00 + a.a11 * b.a10 + a.a12 * b.a20 + a.a13 * b.a30,
   a.a10 * b.a01 + a.a11 * b.a11 + a.a12 * b.a21 + a.a13 * b.a31,
   a.a10 * b.a02 + a.a11 * b.a12 + a.a12 * b.a22 + a.a13 * b.a32,
   a.a10 * b.a03 + a.a11 * b.a13 + a.a12 * b.a23 + a.a13 * b.a33,
   a.a20 * b.a00 + a.a21 * b.a10 + a.a22 * b.a20 + a.a23 * b.a30,
   a.a20 * b.a01 + a.a21 * b.a11 + a.a22 * b.a21 + a.a23 * b.a31,
   a.a20 * b.a02 + a.a21 * b.a12 + a.a22 * b.a22 + a.a23 * b.a32,
   a.a20 * b.a03 + a.a21 * b.a13 + a.a22 * b.a23 + a.a23 * b.a33,
   a.a30 * b.a00 + a.a31 * b.a10 + a.a32 * b.a20 + a.a33 * b.a30,
   a.a30 * b.a01 + a.a31 * b.a11 + a.a32 * b.a21 + a.a33 * b.a31,
   a.a30 * b.a02 + a.a31 * b.a12 + a.a32 * b.a22 + a.a33 * b.a32,
   a.a30 * b.a03 + a.a31 * b.a13 + a.a32 * b.a23 + a.a33 * b.a33⟩

def Mat4.one : Mat4 := ⟨1, 0, 0, 0, 0, 1, 0, 0, 0, 0, 1, 0, 0, 0, 0, 1⟩

/-- Apply a 4x4 matrix to a 4-vector. -/
def Mat4.mulVec (m : Mat4) (b : BVec4) : BVec4 :=
  ⟨m.a00 * b.c0 + m.a01 * b.c1 + m.a02 * b.c2 + m.a03 * b.c3,
   m.a10 * b.c0 + m.a11 * b.c1 + m.a12 * b.c2 + m.a13 * b.c3,
   m.a20 * b.c0 + m.a21 * b.c1 + m.a22 * b.c2 + m.a23 * b.c3,
   m.a30 * b.c0 + m.a31 * b.c1 + m.a32 * b.c2 + m.a33 * b.c3⟩

theorem Mat4.tryInverse_mul_four (m mi : Mat4) (h : m.tryInverse = some mi) :
    Mat4.mul m mi = Mat4.one ∧ Mat4.mul mi m = Mat4.one := by
  unfold Mat4.tryInverse at h
  split at h
  · exact absurd h (by simp)
  · rename_i hdet
    injection h with h
    subst h
    constructor <;>
      (simp only [Mat4.invRaw, Mat4.mul, Mat4.one, Mat4.mk.injEq]
       refine ⟨?_, ?_, ?_, ?_, ?_, ?_, ?_, ?_, ?_, ?_, ?_, ?_, ?_, ?_, ?_, ?_⟩ <;>
         (field_simp [hdet]
          try simp only [Mat4.det, Mat4.c00, Mat4.c01, Mat4.c02, Mat4.c03, Mat4.c10,
            Mat4.c11, Mat4.c12, Mat4.c13, Mat4.c20, Mat4.c21, Mat4.c22, Mat4.c23,
            Mat4.c30, Mat4.c31, Mat4.c32, Mat4.c33, det3x3]
          try ring))

theorem Mat4.mulVec_mul_four (a b : Mat4) (x : BVec4) :
    (Mat4.mul a b).mulVec x = a.mulVec (b.mulVec x) := by
  simp only [Mat4.mul, Mat4.mulVec, BVec4.mk.injEq]
  refine ⟨?_, ?_, ?_, ?_⟩ <;> ring

theorem Mat4.one_mulVec_four (x : BVec4) : Mat4.one.mulVec x = x := by
  simp only [Mat4.one, Mat4.mulVec]
  cases x
  simp only [BVec4.mk.injEq]
  refine ⟨?_, ?_, ?_, ?_⟩ <;> ring

/-- The line-segment projector of line.rs: origin `a`, direction `b - a`,
and the squared length of the direction. -/
structure LineProjector where
  origin : Vec3
  direction : Vec3
  norm_squared : ℚ
deriving DecidableEq

/-- LineProjector::new (line.rs lines 25-35). -/
def LineProjector.new (a b : Vec3) : LineProjector :=
  { origin := a
    direction := Vec3.sub b a
    norm_squared := (Vec3.sub b a).dot (Vec3.sub b a) }

/-- LineProjector::project (line.rs lines 38-51): returns `(1 - t, t)`, or
`(1, 0)` when the segment is degenerate or the point coincides with the
origin. -/
def LineProjector.project (l : LineProjector) (pt : Vec3) : BVec2 :=
  if l.norm_squared = 0 then ⟨1, 0⟩
  else
    let origin_to_pt := Vec3.sub pt l.origin
    if origin_to_pt.dot origin_to_pt = 0 then ⟨1, 0⟩
    else
      let t := origin_to_pt.dot l.direction / l.norm_squared
      ⟨1 - t, t⟩

/-- LineProjector::bary_to_point (line.rs lines 53-55). -/
def LineProjector.bary_to_point (l : LineProjector) (b : BVec2) : Vec3 :=
  Vec3.add l.origin (Vec3.smul b.c1 l.direction)

/-- LineProjector::clipping_project (line.rs lines 63-72): clamp the raw
projection to the segment, reporting whether it was clipped. -/
def LineProjector.clipping_project (l : LineProjector) (pt : Vec3) : BVec2 × Bool :=
  let ret := l.project pt
  if ret.c0 < 0 then (⟨0, 1⟩, true)
  else if ret.c1 < 0 then (⟨1, 0⟩, true)
  else (ret, false)

/-- The plane projector of triangle.rs lines 9-12: reference vertex `v1` and
the two stored rows (`u` and `v`) of the inverted Moeller-Trumbore matrix
(the `t` row is dropped at construction). -/
structure TriangleProjector where
  v1 : Vec3
  row_u : Vec3
  row_v : Vec3
deriving DecidableEq

/-- The Moeller-Trumbore matrix of triangle.rs lines 35-44: columns are
`(-normal, v2 - v1, v3 - v1)` with `normal = (v2 - v1) x (v3 - v1)`. -/
def triPremul (v1 v2 v3 : Vec3) : Mat3 :=
  Mat3.fromCols (Vec3.sub ⟨0, 0, 0⟩ ((Vec3.sub v2 v1).cross (Vec3.sub v3 v1)))
    (Vec3.sub v2 v1) (Vec3.sub v3 v1)

/-- TriangleProjector::new (triangle.rs lines 26-53).  The premul matrix is
inverted and its rows 1 and 2 kept; the Rust code unwraps the inversion
(panicking on a singular matrix), modelled here as `none`. -/
def TriangleProjector.new? (v1 v2 v3 : Vec3) : Option TriangleProjector :=
  ((triPremul v1 v2 v3).tryInverse).map fun inv =>
    { v1 := v1
      row_u := ⟨inv.m10, inv.m11, inv.m12⟩
      row_v := ⟨inv.m20, inv.m21, inv.m22⟩ }

/-- The TriangleProjector produced by a successful construction, spelled
with the explicit inverse entries. -/
def triOf (v1 v2 v3 : Vec3) : TriangleProjector :=
  { v1 := v1
    row_u := ⟨((triPremul v1 v2 v3).invRaw).m10, ((triPremul v1 v2 v3).invRaw).m11,
      ((triPremul v1 v2 v3).invRaw).m12⟩
    row_v := ⟨((triPremul v1 v2 v3).invRaw).m20, ((triPremul v1 v2 v3).invRaw).m21,
      ((triPremul v1 v2 v3).invRaw).m22⟩ }

theorem tri_new?_of_det (v1 v2 v3 : Vec3) (h : (triPremul v1 v2 v3).det ≠ 0) :
    TriangleProjector.new? v1 v2 v3 = some (triOf v1 v2 v3) := by
  unfold TriangleProjector.new? Mat3.tryInverse
  rw [if_neg h]
  rfl

/-- TriangleProjector::project (triangle.rs lines 55-63): `(u, v)` from the
stored 2x3 matrix applied to `pt - v1`, and `w = 1 - u - v`. -/
def TriangleProjector.project (t : TriangleProjector) (pt : Vec3) : BVec3 :=
  let v1_to_pt := Vec3.sub pt t.v1
  let u := t.row_u.dot v1_to_pt
  let v := t.row_v.dot v1_to_pt
  ⟨1 - u - v, u, v⟩

/-- The clipping triangle projector of triangle.rs lines 66-70: the vertex
matrix (columns are the vertices), one edge LineProjector per opposite
vertex, and the inner (unclamped) TriangleProjector. -/
structure ClippingTriangleProjector where
  vertices : Mat3
  line0 : LineProjector
  line1 : LineProjector
  line2 : LineProjector
  normal_project : TriangleProjector

/-- ClippingTriangleProjector::new (triangle.rs lines 83-94).  Line `i`
joins vertex `(i+1)%3` to vertex `(i+2)%3`; construction fails (Rust
panics) exactly when the inner TriangleProjector construction does. -/
def ClippingTriangleProjector.new? (v1 v2 v3 : Vec3) : Option ClippingTriangleProjector :=
  (TriangleProjector.new? v1 v2 v3).map fun np =>
    { vertices := Mat3.fromCols v1 v2 v3
      line0 := LineProjector.new v2 v3
      line1 := LineProjector.new v3 v1
      line2 := LineProjector.new v1 v2
      normal_project := np }

/-- The edge LineProjector opposite vertex `i` (triangle.rs line 68). -/
def ClippingTriangleProjector.line (t : ClippingTriangleProjector) : Fin 3 → LineProjector
  | 0 => t.line0
  | 1 => t.line1
  | 2 => t.line2

/-- ClippingTriangleProjector::project (triangle.rs lines 96-98). -/
def ClippingTriangleProjector.project (t : ClippingTriangleProjector) (pt : Vec3) : BVec3 :=
  t.normal_project.project pt

/-- ClippingTriangleProjector::bary_to_point (triangle.rs lines 100-102). -/
def ClippingTriangleProjector.bary_to_point (t : ClippingTriangleProjector) (b : BVec3) : Vec3 :=
  t.vertices.mulBary b

/-- The edge candidate of triangle.rs lines 124-126: zero at index `i`, the
line coordinates at indices `(i+1)%3` and `(i+2)%3`. -/
def candAt (i : Fin 3) (lb : BVec2) : BVec3 :=
  match i with
  | 0 => ⟨0, lb.c0, lb.c1⟩
  | 1 => ⟨lb.c1, 0, lb.c0⟩
  | 2 => ⟨lb.c0, lb.c1, 0⟩

/-- One iteration of the edge loop of ClippingTriangleProjector::
clipping_project (triangle.rs lines 118-144): `error` carries the
immediately returned clean-edge candidate, `ok` the running best
candidate and its squared distance. -/
def ctpCheck (t : ClippingTriangleProjector) (pt : Vec3) (bary : BVec3) (i : Fin 3)
    (acc : BVec3 × ℚ) : Except BVec3 (BVec3 × ℚ) :=
  if bary.get i < 0 then
    let line_result := (t.line i).clipping_project pt
    let cand := candAt i line_result.1
    if line_result.2 = false then .error cand
    else
      let cand_dist := Vec3.normSq (Vec3.sub (t.bary_to_point cand) pt)
      if cand_dist < acc.2 then .ok (cand, cand_dist) else .ok acc
  else .ok acc

/-- ClippingTriangleProjector::clipping_project (triangle.rs lines 105-146),
with the `for index in 0..3` loop unrolled into three `ctpCheck` steps. -/
def ClippingTriangleProjector.clipping_project (t : ClippingTriangleProjector) (pt : Vec3) :
    BVec3 × Bool × Option ℚ :=
  let bary := t.project pt
  if min3 bary ≥ 0 then (bary, false, none)
  else
    let best_barycentric := clamp3 bary
    let best_barycentric_sum := sum3 best_barycentric
    let best0 := bdiv3 best_barycentric best_barycentric_sum
    let best0_dist := Vec3.normSq (Vec3.sub (t.bary_to_point best0) pt)
    match ctpCheck t pt bary 0 (best0, best0_dist) with
    | .error cand => (cand, true, none)
    | .ok acc1 =>
      match ctpCheck t pt bary 1 acc1 with
      | .error cand => (cand, true, none)
      | .ok acc2 =>
        match ctpCheck t pt bary 2 acc2 with
        | .error cand => (cand, true, none)
        | .ok acc3 => (acc3.1, true, some acc3.2)

/-- The tetrahedron projector of tetrahedron.rs lines 6-9. -/
structure TetrahedronProjector where
  to_barycentric : Mat4
  from_barycentric : Mat4
deriving DecidableEq

/-- TetrahedronProjector::new (tetrahedron.rs lines 14-29): the homogeneous
vertex matrix and its (unwrapped, hence fallible) inverse. -/
def TetrahedronProjector.new? (p1 p2 p3 p4 : Vec3) : Option TetrahedronProjector :=
  let from_barycentric := Mat4.fromColsHom p1 p2 p3 p4
  (from_barycentric.tryInverse).map fun to_barycentric =>
    { to_barycentric := to_barycentric, from_barycentric := from_barycentric }

/-- The TetrahedronProjector produced by a successful construction, spelled
with the explicit inverse entries. -/
def tetOf (p1 p2 p3 p4 : Vec3) : TetrahedronProjector :=
  { to_barycentric := (Mat4.fromColsHom p1 p2 p3 p4).invRaw
    from_barycentric := Mat4.fromColsHom p1 p2 p3 p4 }

theorem tet_new?_of_det (p1 p2 p3 p4 : Vec3) (h : (Mat4.fromColsHom p1 p2 p3 p4).det ≠ 0) :
    TetrahedronProjector.new? p1 p2 p3 p4 = some (tetOf p1 p2 p3 p4) := by
  unfold TetrahedronProjector.new? Mat4.tryInverse
  dsimp only
  rw [if_neg h]
  rfl

/-- The homogeneous coordinate of a point (nalgebra `to_homogeneous`). -/
def Vec3.hom (p : Vec3) : BVec4 := ⟨p.x, p.y, p.z, 1⟩

/-- TetrahedronProjector::project (tetrahedron.rs lines 31-33). -/
def TetrahedronProjector.project (t : TetrahedronProjector) (pt : Vec3) : BVec4 :=
  t.to_barycentric.mulVec pt.hom

/-- TetrahedronProjector::bary_to_point (tetrahedron.rs lines 35-37):
`Point3::from_homogeneous(...).unwrap()`, modelled as `none` when the
homogeneous weight is zero. -/
def TetrahedronProjector.bary_to_point (t : TetrahedronProjector) (b : BVec4) : Option Vec3 :=
  let h := t.from_barycentric.mulVec b
  if h.c3 = 0 then none else some ⟨h.c0 / h.c3, h.c1 / h.c3, h.c2 / h.c3⟩

/-- The octahedron projector of octahedron.rs lines 10-27: 4 tetrahedral
wedges, 8 triangular faces and 12 edge lines. -/
structure OctahedronProjector where
  wedges : Fin 4 → TetrahedronProjector
  faces : Fin 8 → TriangleProjector
  edges : Fin 12 → LineProjector

/-- The edge LineProjector of octahedron.rs lines 64-79: edges 0-3 run
pole0 to each equatorial vertex, 4-7 pole1 to each equatorial vertex,
8-11 around the equatorial ring. -/
def octEdge (v : Fin 6 → Vec3) (i : Fin 12) : LineProjector :=
  let pole_index := i.val / 4
  let equator_index := i.val % 4
  if h : pole_index < 2 then
    LineProjector.new (v ⟨pole_index, by omega⟩) (v ⟨2 + equator_index, by omega⟩)
  else
    LineProjector.new (v ⟨2 + equator_index % 4, by omega⟩)
      (v ⟨2 + (equator_index + 1) % 4, by omega⟩)

/-- OctahedronProjector::new (octahedron.rs lines 41-86): wedge `i` spans
both poles and equatorial vertices `2 + i%4`, `2 + (i+1)%4`; face `i`
spans pole `i/4` and the same pair.  The `unwrap`-on-singular-matrix
panics of the sub-constructors are propagated as `none`. -/
def OctahedronProjector.new? (v : Fin 6 → Vec3) : Option OctahedronProjector :=
  (TetrahedronProjector.new? (v 0) (v 1) (v 2) (v 3)).bind fun w0 =>
  (TetrahedronProjector.new? (v 0) (v 1) (v 3) (v 4)).bind fun w1 =>
  (TetrahedronProjector.new? (v 0) (v 1) (v 4) (v 5)).bind fun w2 =>
  (TetrahedronProjector.new? (v 0) (v 1) (v 5) (v 2)).bind fun w3 =>
  (TriangleProjector.new? (v 0) (v 2) (v 3)).bind fun f0 =>
  (TriangleProjector.new? (v 0) (v 3) (v 4)).bind fun f1 =>
  (TriangleProjector.new? (v 0) (v 4) (v 5)).bind fun f2 =>
  (TriangleProjector.new? (v 0) (v 5) (v 2)).bind fun f3 =>
  (TriangleProjector.new? (v 1) (v 2) (v 3)).bind fun f4 =>
  (TriangleProjector.new? (v 1) (v 3) (v 4)).bind fun f5 =>
  (TriangleProjector.new? (v 1) (v 4) (v 5)).bind fun f6 =>
  (TriangleProjector.new? (v 1) (v 5) (v 2)).map fun f7 =>
    { wedges := ![w0, w1, w2, w3]
      faces := ![f0, f1, f2, f3, f4, f5, f6, f7]
      edges := fun i => octEdge v i }

/-- Wedge barycentric remap (octahedron.rs lines 88-97): north and south go
to slots 0 and 1, the local `a`/`b` components to slots `2 + index%4` and
`2 + (index+1)%4`; the `match` unrolls that index arithmetic. -/
def wedgeLocalToGlobal (index : Fin 4) (lb : BVec4) : BVec6 :=
  match index with
  | 0 => ⟨lb.c0, lb.c1, lb.c2, lb.c3, 0, 0⟩
  | 1 => ⟨lb.c0, lb.c1, 0, lb.c2, lb.c3, 0⟩
  | 2 => ⟨lb.c0, lb.c1, 0, 0, lb.c2, lb.c3⟩
  | 3 => ⟨lb.c0, lb.c1, lb.c3, 0, 0, lb.c2⟩

/-- Face barycentric remap (octahedron.rs lines 99-107): the pole component
goes to slot `index/4`, the local `a`/`b` components to slots
`2 + index%4` and `2 + (index+1)%4`. -/
def faceLocalToGlobal (index : Fin 8) (lb : BVec3) : BVec6 :=
  match index with
  | 0 => ⟨lb.c0, 0, lb.c1, lb.c2, 0, 0⟩
  | 1 => ⟨lb.c0, 0, 0, lb.c1, lb.c2, 0⟩
  | 2 => ⟨lb.c0, 0, 0, 0, lb.c1, lb.c2⟩
  | 3 => ⟨lb.c0, 0, lb.c2, 0, 0, lb.c1⟩
  | 4 => ⟨0, lb.c0, lb.c1, lb.c2, 0, 0⟩
  | 5 => ⟨0, lb.c0, 0, lb.c1, lb.c2, 0⟩
  | 6 => ⟨0, lb.c0, 0, 0, lb.c1, lb.c2⟩
  | 7 => ⟨0, lb.c0, lb.c2, 0, 0, lb.c1⟩

/-- Edge barycentric remap (octahedron.rs lines 109-125): pole edges put
their first coordinate on the pole slot and the second on the equatorial
slot; ring edges put them on the two adjacent equatorial slots. -/
def edgeLocalToGlobal (index : Fin 12) (lb : BVec2) : BVec6 :=
  match index with
  | 0 => ⟨lb.c0, 0, lb.c1, 0, 0, 0⟩
  | 1 => ⟨lb.c0, 0, 0, lb.c1, 0, 0⟩
  | 2 => ⟨lb.c0, 0, 0, 0, lb.c1, 0⟩
  | 3 => ⟨lb.c0, 0, 0, 0, 0, lb.c1⟩
  | 4 => ⟨0, lb.c0, lb.c1, 0, 0, 0⟩
  | 5 => ⟨0, lb.c0, 0, lb.c1, 0, 0⟩
  | 6 => ⟨0, lb.c0, 0, 0, lb.c1, 0⟩
  | 7 => ⟨0, lb.c0, 0, 0, 0, lb.c1⟩
  | 8 => ⟨0, 0, lb.c0, lb.c1, 0, 0⟩
  | 9 => ⟨0, 0, 0, lb.c0, lb.c1, 0⟩
  | 10 => ⟨0, 0, 0, 0, lb.c0, lb.c1⟩
  | 11 => ⟨0, 0, lb.c1, 0, 0, lb.c0⟩

/-- Mark one entry of the `edges_to_check` array true. -/
def markSet (flags : Fin 12 → Bool) (k : Fin 12) : Fin 12 → Bool :=
  fun j => if j = k then true else flags j

/-- State carried through the wedge scan of OctahedronProjector::project:
the `edges_to_check` flags and the best (least negative) wedge candidate. -/
structure ScanState where
  edgesToCheck : Fin 12 → Bool
  best : Option (BVec6 × ℚ)

/-- The per-pole body of octahedron.rs lines 156-187: when the wedge
barycentric component of `pole` is at most 0, project onto the outer face
of the opposite pole; a clean face projection returns immediately
(`error`), otherwise candidate edges are marked. -/
def poleCheck (o : OctahedronProjector) (pt : Vec3) (wedge_index : Fin 4) (pole : Fin 2)
    (wb : BVec4) (flags : Fin 12 → Bool) : Except BVec6 (Fin 12 → Bool) :=
  if wb.get ⟨pole.val, by have := pole.isLt; omega⟩ ≤ 0 then
    let face_index : Fin 8 :=
      ⟨(1 - pole.val) * 4 + wedge_index.val, by have := wedge_index.isLt; have := pole.isLt; omega⟩
    let fb := (o.faces face_index).project pt
    if min3 fb ≥ 0 then .error (faceLocalToGlobal face_index fb)
    else
      let flags1 := if fb.c0 ≤ 0 then
        markSet flags ⟨8 + face_index.val % 4, by have := Nat.mod_lt face_index.val (y := 4) (by omega); omega⟩
        else flags
      let flags2 := if fb.c1 ≤ 0 then
        markSet flags1 ⟨(face_index.val / 4) * 4 + (face_index.val % 4 + 1) % 4,
          by have := face_index.isLt; omega⟩
        else flags1
      let flags3 := if fb.c2 ≤ 0 then
        markSet flags2 ⟨(face_index.val / 4) * 4 + (face_index.val % 4 + 0) % 4,
          by have := face_index.isLt; omega⟩
        else flags2
      .ok flags3
  else .ok flags

/-- One iteration of the wedge loop of octahedron.rs lines 130-188: a wedge
containing the point returns its remapped coordinates immediately
(`error`); otherwise the best wedge candidate is updated and both poles
are checked against the outer faces. -/
def wedgeStep (o : OctahedronProjector) (pt : Vec3) (i : Fin 4) (st : ScanState) :
    Except BVec6 ScanState :=
  let wb := (o.wedges i).project pt
  let m := min4 wb
  if m ≥ 0 then .error (wedgeLocalToGlobal i wb)
  else
    let best := if (st.best.map fun b => decide (b.2 < m)).getD true then
        some (wedgeLocalToGlobal i wb, m)
      else st.best
    match poleCheck o pt i 0 wb st.edgesToCheck with
    | .error r => .error r
    | .ok flags1 =>
      match poleCheck o pt i 1 wb flags1 with
      | .error r => .error r
      | .ok flags2 => .ok ⟨flags2, best⟩

/-- The ambiguous-zone fallback of octahedron.rs lines 193-207: clamp the
negative components of the best wedge candidate to 0 and renormalize the
sum to 1 when the clamped sum is positive. -/
def octFallbackNormalize (b : BVec6) : BVec6 :=
  let c := clampNeg6 b
  let s := sum6 c
  if s > 0 then ⟨c.c0 / s, c.c1 / s, c.c2 / s, c.c3 / s, c.c4 / s, c.c5 / s⟩ else c

/-- The marked-edge loop of octahedron.rs lines 208-222: evaluate every
marked edge's clipped projection and keep the one with the smallest
squared distance to the query point. -/
def edgeLoop (o : OctahedronProjector) (pt : Vec3) (flags : Fin 12 → Bool) :
    List (Fin 12) → Option (BVec6 × ℚ) → Option (BVec6 × ℚ)
  | [], best => best
  | j :: rest, best =>
    if flags j then
      let lb := ((o.edges j).clipping_project pt).1
      let distance := Vec3.normSq (Vec3.sub ((o.edges j).bary_to_point lb) pt)
      let best1 := if (best.map fun b => decide (b.2 > distance)).getD true then
          some (edgeLocalToGlobal j lb, distance)
        else best
      edgeLoop o pt flags rest best1
    else edgeLoop o pt flags rest best

/-- OctahedronProjector::project (octahedron.rs lines 127-225).  The four
wedge iterations are unrolled; `none` models the two possible
`unwrap` panics on an empty candidate (both provably unreachable for a
successfully constructed projector). -/
def OctahedronProjector.project (o : OctahedronProjector) (pt : Vec3) : Option BVec6 :=
  let st0 : ScanState := ⟨fun _ => false, none⟩
  match wedgeStep o pt 0 st0 with
  | .error r => some r
  | .ok st1 =>
  match wedgeStep o pt 1 st1 with
  | .error r => some r
  | .ok st2 =>
  match wedgeStep o pt 2 st2 with
  | .error r => some r
  | .ok st3 =>
  match wedgeStep o pt 3 st3 with
  | .error r => some r
  | .ok st4 =>
    if (List.finRange 12).all fun j => ! st4.edgesToCheck j then
      match st4.best with
      | none => none
      | some b => some (octFallbackNormalize b.1)
    else
      (edgeLoop o pt st4.edgesToCheck (List.finRange 12) none).map fun b => b.1

theorem Mat3.mulVec_mul (a b : Mat3) (x : BVec3) :
    (Mat3.mul a b).mulVec x = a.mulVec (b.mulVec x) := by
  simp only [Mat3.mul, Mat3.mulVec, BVec3.mk.injEq]
  refine ⟨?_, ?_, ?_⟩ <;> ring

theorem Mat3.one_mulVec (x : BVec3) : Mat3.one.mulVec x = x := by
  cases x
  simp only [Mat3.one, Mat3.mulVec, BVec3.mk.injEq]
  refine ⟨?_, ?_, ?_⟩ <;> ring

theorem min3_nonneg (b : BVec3) (h : min3 b ≥ 0) : nonneg3 b := by
  unfold min3 at h
  simp only [ge_iff_le, le_min_iff] at h
  exact ⟨h.1.1, h.1.2, h.2⟩

theorem min4_nonneg (b : BVec4) (h : min4 b ≥ 0) : nonneg4 b := by
  unfold min4 at h
  simp only [ge_iff_le, le_min_iff] at h
  exact ⟨h.1.1.1, h.1.1.2, h.1.2, h.2⟩

theorem min3_le_get (b : BVec3) (i : Fin 3) : min3 b ≤ b.get i := by
  fin_cases i <;>
    simp only [min3, BVec3.get] <;>
    [exact le_trans (min_le_left _ _) (min_le_left _ _);
     exact le_trans (min_le_left _ _) (min_le_right _ _);
     exact min_le_right _ _]

theorem clampIf_nonneg (q : ℚ) : 0 ≤ if q < 0 then 0 else q := by
  split
  · exact le_refl 0
  · linarith [not_lt.mp (by assumption)]

theorem clamp3_nonneg (b : BVec3) : nonneg3 (clamp3 b) :=
  ⟨clampIf_nonneg b.c0, clampIf_nonneg b.c1, clampIf_nonneg b.c2⟩

theorem clampNeg6_nonneg (b : BVec6) : nonneg6 (clampNeg6 b) :=
  ⟨clampIf_nonneg b.c0, clampIf_nonneg b.c1, clampIf_nonneg b.c2,
   clampIf_nonneg b.c3, clampIf_nonneg b.c4, clampIf_nonneg b.c5⟩

theorem sum3_le_clamp3 (b : BVec3) : sum3 b ≤ sum3 (clamp3 b) := by
  unfold sum3 clamp3
  have h0 : b.c0 ≤ if b.c0 < 0 then 0 else b.c0 := by split <;> linarith
  have h1 : b.c1 ≤ if b.c1 < 0 then 0 else b.c1 := by split <;> linarith
  have h2 : b.c2 ≤ if b.c2 < 0 then 0 else b.c2 := by split <;> linarith
  dsimp only
  linarith

theorem sum6_le_clampNeg6 (b : BVec6) : sum6 b ≤ sum6 (clampNeg6 b) := by
  unfold sum6 clampNeg6
  have h0 : b.c0 ≤ if b.c0 < 0 then 0 else b.c0 := by split <;> linarith
  have h1 : b.c1 ≤ if b.c1 < 0 then 0 else b.c1 := by split <;> linarith
  have h2 : b.c2 ≤ if b.c2 < 0 then 0 else b.c2 := by split <;> linarith
  have h3 : b.c3 ≤ if b.c3 < 0 then 0 else b.c3 := by split <;> linarith
  have h4 : b.c4 ≤ if b.c4 < 0 then 0 else b.c4 := by split <;> linarith
  have h5 : b.c5 ≤ if b.c5 < 0 then 0 else b.c5 := by split <;> linarith
  dsimp only
  linarith

/-- The two components of a raw line projection always sum to 1. -/
theorem line_project_sum (l : LineProjector) (pt : Vec3) :
    (l.project pt).c0 + (l.project pt).c1 = 1 := by
  unfold LineProjector.project
  split
  · norm_num
  · dsimp only
    split
    · norm_num
    · dsimp only; ring

/-- The clipped line projection is componentwise nonnegative and sums to 1
on all branches of line.rs clipping_project. -/
theorem line_clipping_good (l : LineProjector) (pt : Vec3) :
    nonneg2 ((l.clipping_project pt).1) ∧
      ((l.clipping_project pt).1).c0 + ((l.clipping_project pt).1).c1 = 1 := by
  unfold LineProjector.clipping_project
  have hsum := line_project_sum l pt
  dsimp only
  split
  · exact ⟨⟨le_refl 0, by norm_num⟩, by norm_num⟩
  · split
    · exact ⟨⟨by norm_num, le_refl 0⟩, by norm_num⟩
    · rename_i h0 h1
      exact ⟨⟨by linarith [not_lt.mp h0], by linarith [not_lt.mp h1]⟩, hsum⟩

/-- The raw triangle projection always sums to 1 (`w = 1 - u - v`). -/
theorem tri_project_sum (t : TriangleProjector) (pt : Vec3) :
    sum3 (t.project pt) = 1 := by
  unfold TriangleProjector.project sum3
  dsimp only
  ring

theorem ctp_project_sum (t : ClippingTriangleProjector) (pt : Vec3) :
    sum3 (t.project pt) = 1 :=
  tri_project_sum t.normal_project pt

/-- The clamped raw triangle projection always sums to at least 1: the
renormalization divisor of the baseline candidate in triangle.rs lines
111-116 is never zero (in exact arithmetic). -/
theorem ctp_clamp_sum_ge_one (t : ClippingTriangleProjector) (pt : Vec3) :
    1 ≤ sum3 (clamp3 (t.project pt)) := by
  have h := sum3_le_clamp3 (t.project pt)
  have hs := ctp_project_sum t pt
  linarith

theorem candAt_sum (i : Fin 3) (lb : BVec2) : sum3 (candAt i lb) = lb.c0 + lb.c1 := by
  fin_cases i <;> simp only [candAt, sum3] <;> ring

theorem candAt_nonneg (i : Fin 3) (lb : BVec2) (h : nonneg2 lb) : nonneg3 (candAt i lb) := by
  fin_cases i <;> simp only [candAt, nonneg3] <;>
    exact ⟨by first | exact h.1 | exact h.2 | norm_num,
      by first | exact h.1 | exact h.2 | norm_num,
      by first | exact h.1 | exact h.2 | norm_num⟩

/-- Each error or accumulator produced by one step of the triangle clipping
loop is componentwise nonnegative and sums to 1. -/
theorem ctpCheck_good (t : ClippingTriangleProjector) (pt : Vec3) (bary : BVec3) (i : Fin 3)
    (acc : BVec3 × ℚ) (hacc : nonneg3 acc.1 ∧ sum3 acc.1 = 1) :
    (∀ c, ctpCheck t pt bary i acc = .error c → nonneg3 c ∧ sum3 c = 1) ∧
      (∀ acc2, ctpCheck t pt bary i acc = .ok acc2 → nonneg3 acc2.1 ∧ sum3 acc2.1 = 1) := by
  unfold ctpCheck
  have hline := line_clipping_good (t.line i) pt
  constructor
  · intro c hc
    split at hc
    · dsimp only at hc
      split at hc
      · injection hc with hc
        subst hc
        refine ⟨candAt_nonneg i _ hline.1, ?_⟩
        rw [candAt_sum]
        exact hline.2
      · split at hc <;> exact absurd hc (by simp)
    · exact absurd hc (by simp)
  · intro acc2 hc
    split at hc
    · dsimp only at hc
      split at hc
      · exact absurd hc (by simp)
      · split at hc <;> injection hc with hc <;> subst hc
        · refine ⟨candAt_nonneg i _ hline.1, ?_⟩
          rw [candAt_sum]
          exact hline.2
        · exact hacc
    · injection hc with hc
      subst hc
      exact hacc

/-- A clean-edge early return can only arise from a negative raw component
whose opposite-edge projection was not clipped, and carries exactly the
corresponding candidate. -/
theorem ctpCheck_error_clean (t : ClippingTriangleProjector) (pt : Vec3) (bary : BVec3)
    (i : Fin 3) (acc : BVec3 × ℚ) (c : BVec3) (h : ctpCheck t pt bary i acc = .error c) :
    bary.get i < 0 ∧ ((t.line i).clipping_project pt).2 = false ∧
      c = candAt i ((t.line i).clipping_project pt).1 := by
  unfold ctpCheck at h
  split at h
  · dsimp only at h
    split at h
    · rename_i hneg hclean
      injection h with h
      exact ⟨hneg, hclean, h.symm⟩
    · split at h <;> exact absurd h (by simp)
  · exact absurd h (by simp)

/-- A negative raw component whose opposite-edge projection is clean forces
the immediate clean-edge return. -/
theorem ctpCheck_clean_error (t : ClippingTriangleProjector) (pt : Vec3) (bary : BVec3)
    (i : Fin 3) (acc : BVec3 × ℚ) (hneg : bary.get i < 0)
    (hclean : ((t.line i).clipping_project pt).2 = false) :
    ctpCheck t pt bary i acc = .error (candAt i ((t.line i).clipping_project pt).1) := by
  unfold ctpCheck
  rw [if_pos hneg]
  dsimp only
  rw [if_pos hclean]
theorem bdiv3_sum_one (c : BVec3) (s : ℚ) (hs : s ≠ 0) (hsum : sum3 c = s) :
    sum3 (bdiv3 c s) = 1 := by
  unfold sum3 at hsum
  unfold sum3 bdiv3
  dsimp only
  rw [div_add_div_same, div_add_div_same, hsum]
  exact div_self hs

/-- C6: for every point and every ClippingTriangleProjector,
clipping_project returns a barycentric vector with all three components
nonnegative and summing to 1, on the unclipped fast path, the clean-edge
early return and the candidate-comparison path alike. -/
theorem claim_C6_clipping_triangle_invariant (t : ClippingTriangleProjector) (pt : Vec3) :
    nonneg3 (t.clipping_project pt).1 ∧ sum3 (t.clipping_project pt).1 = 1 := by
  have hs1 : 1 ≤ sum3 (clamp3 (t.project pt)) := ctp_clamp_sum_ge_one t pt
  have hs0 : (0 : ℚ) < sum3 (clamp3 (t.project pt)) := by linarith
  have hcnn := clamp3_nonneg (t.project pt)
  have hinit : nonneg3 (bdiv3 (clamp3 (t.project pt)) (sum3 (clamp3 (t.project pt)))) ∧
      sum3 (bdiv3 (clamp3 (t.project pt)) (sum3 (clamp3 (t.project pt)))) = 1 :=
    ⟨⟨div_nonneg hcnn.1 (le_of_lt hs0), div_nonneg hcnn.2.1 (le_of_lt hs0),
      div_nonneg hcnn.2.2 (le_of_lt hs0)⟩, bdiv3_sum_one _ _ (ne_of_gt hs0) rfl⟩
  unfold ClippingTriangleProjector.clipping_project
  dsimp only
  split
  · rename_i h
    exact ⟨min3_nonneg _ h, ctp_project_sum t pt⟩
  · rcases h0 : ctpCheck t pt (t.project pt) 0
        (bdiv3 (clamp3 (t.project pt)) (sum3 (clamp3 (t.project pt))),
         Vec3.normSq (Vec3.sub (t.bary_to_point
           (bdiv3 (clamp3 (t.project pt)) (sum3 (clamp3 (t.project pt))))) pt)) with c | acc1
    · exact (ctpCheck_good t pt (t.project pt) 0 _ hinit).1 c h0
    · have hacc1 := (ctpCheck_good t pt (t.project pt) 0 _ hinit).2 acc1 h0
      dsimp only
      rcases h1 : ctpCheck t pt (t.project pt) 1 acc1 with c | acc2
      · exact (ctpCheck_good t pt (t.project pt) 1 _ hacc1).1 c h1
      · have hacc2 := (ctpCheck_good t pt (t.project pt) 1 _ hacc1).2 acc2 h1
        dsimp only
        rcases h2 : ctpCheck t pt (t.project pt) 2 acc2 with c | acc3
        · exact (ctpCheck_good t pt (t.project pt) 2 _ hacc2).1 c h2
        · exact (ctpCheck_good t pt (t.project pt) 2 _ hacc2).2 acc3 h2

/-- C7: in ClippingTriangleProjector::clipping_project, for the first index
`i` (in order 0, 1, 2) whose raw barycentric component is negative and whose
edge-`i` line clipping is not itself clipped, the function returns
immediately, without evaluating the remaining edges, the candidate with 0 at
index `i` and the line coordinates at indices `(i+1)%3` and `(i+2)%3`,
with the clipped flag `true` and no squared-distance value. -/
theorem claim_C7_clean_edge_early_return (t : ClippingTriangleProjector) (pt : Vec3)
    (i : Fin 3) (hneg : (t.project pt).get i < 0)
    (hclean : ((t.line i).clipping_project pt).2 = false)
    (hprev : ∀ j : Fin 3, j < i → (t.project pt).get j < 0 →
      ((t.line j).clipping_project pt).2 = true) :
    t.clipping_project pt = (candAt i ((t.line i).clipping_project pt).1, true, none) := by
  have hmin : ¬ (min3 (t.project pt) ≥ 0) := by
    have h := min3_le_get (t.project pt) i
    push_neg
    linarith
  unfold ClippingTriangleProjector.clipping_project
  dsimp only
  rw [if_neg hmin]
  fin_cases i
  · rw [ctpCheck_clean_error t pt (t.project pt) 0 _ hneg hclean]
    rfl
  · rcases h0 : ctpCheck t pt (t.project pt) 0
        (bdiv3 (clamp3 (t.project pt)) (sum3 (clamp3 (t.project pt))),
         Vec3.normSq (Vec3.sub (t.bary_to_point
           (bdiv3 (clamp3 (t.project pt)) (sum3 (clamp3 (t.project pt))))) pt)) with c | acc1
    · obtain ⟨hn0, hc0, _⟩ := ctpCheck_error_clean t pt _ 0 _ c h0
      have hpr := hprev 0 (by decide) hn0
      rw [hpr] at hc0
      exact absurd hc0 (by simp)
    · dsimp only
      rw [ctpCheck_clean_error t pt (t.project pt) 1 acc1 hneg hclean]
      rfl
  · rcases h0 : ctpCheck t pt (t.project pt) 0
        (bdiv3 (clamp3 (t.project pt)) (sum3 (clamp3 (t.project pt))),
         Vec3.normSq (Vec3.sub (t.bary_to_point
           (bdiv3 (clamp3 (t.project pt)) (sum3 (clamp3 (t.project pt))))) pt)) with c | acc1
    · obtain ⟨hn0, hc0, _⟩ := ctpCheck_error_clean t pt _ 0 _ c h0
      have hpr := hprev 0 (by decide) hn0
      rw [hpr] at hc0
      exact absurd hc0 (by simp)
    · dsimp only
      rcases h1 : ctpCheck t pt (t.project pt) 1 acc1 with c | acc2
      · obtain ⟨hn1, hc1, _⟩ := ctpCheck_error_clean t pt _ 1 _ c h1
        have hpr := hprev 1 (by decide) hn1
        rw [hpr] at hc1
        exact absurd hc1 (by simp)
      · dsimp only
        rw [ctpCheck_clean_error t pt (t.project pt) 2 acc2 hneg hclean]
        rfl

/-- C10: a LineProjector built from two equal vertices returns (1, 0) at
every query point, and any LineProjector queried at its own origin
returns (1, 0); neither path divides. -/
theorem claim_C10_line_degenerate_paths :
    (∀ a pt : Vec3, (LineProjector.new a a).project pt = ⟨1, 0⟩) ∧
      (∀ (l : LineProjector) (pt : Vec3), pt = l.origin → l.project pt = ⟨1, 0⟩) := by
  constructor
  · intro a pt
    unfold LineProjector.new LineProjector.project
    rw [if_pos]
    simp only [Vec3.sub, Vec3.dot]
    ring
  · intro l pt hpt
    subst hpt
    unfold LineProjector.project
    split
    · rfl
    · rw [if_pos]
      simp only [Vec3.sub, Vec3.dot]
      ring

theorem claim_C10_witness :
    (LineProjector.new ⟨5, 5, 5⟩ ⟨5, 5, 5⟩).project ⟨1, 2, 3⟩ = ⟨1, 0⟩ ∧
      (LineProjector.new ⟨1, 2, 3⟩ ⟨4, 5, 6⟩).project ⟨1, 2, 3⟩ = ⟨1, 0⟩ :=
  ⟨claim_C10_line_degenerate_paths.1 ⟨5, 5, 5⟩ ⟨1, 2, 3⟩,
   claim_C10_line_degenerate_paths.2 (LineProjector.new ⟨1, 2, 3⟩ ⟨4, 5, 6⟩) ⟨1, 2, 3⟩ (by decide)⟩

/-- C4 (counterexample): on an input whose clamped component sum is zero,
the fallback of octahedron.rs lines 193-207 does not renormalize (the
`sum > 0` guard skips the division), so the result does not sum to 1 and
no division by zero occurs. -/
theorem claim_C4_counterexample :
    octFallbackNormalize ⟨-1, -1, -1, -1, -1, -1⟩ = ⟨0, 0, 0, 0, 0, 0⟩ ∧
      sum6 (octFallbackNormalize ⟨-1, -1, -1, -1, -1, -1⟩) ≠ 1 := by
  constructor <;> norm_num [octFallbackNormalize, clampNeg6, sum6]

theorem octFallback_pos_good (b : BVec6) (hpos : 0 < sum6 (clampNeg6 b)) :
    nonneg6 (octFallbackNormalize b) ∧ sum6 (octFallbackNormalize b) = 1 := by
  have hnn := clampNeg6_nonneg b
  unfold octFallbackNormalize
  dsimp only
  rw [if_pos hpos]
  refine ⟨⟨div_nonneg hnn.1 (le_of_lt hpos), div_nonneg hnn.2.1 (le_of_lt hpos),
    div_nonneg hnn.2.2.1 (le_of_lt hpos), div_nonneg hnn.2.2.2.1 (le_of_lt hpos),
    div_nonneg hnn.2.2.2.2.1 (le_of_lt hpos), div_nonneg hnn.2.2.2.2.2 (le_of_lt hpos)⟩, ?_⟩
  unfold sum6 at hpos ⊢
  dsimp only
  rw [div_add_div_same, div_add_div_same, div_add_div_same, div_add_div_same,
    div_add_div_same]
  exact div_self (by linarith)

theorem octFallback_nonpos_skip (b : BVec6) (hle : sum6 (clampNeg6 b) ≤ 0) :
    octFallbackNormalize b = clampNeg6 b := by
  unfold octFallbackNormalize
  dsimp only
  rw [if_neg (not_lt.mpr hle)]

/-- C4 (amended): the fallback clamps negative components to 0 and, only
when the clamped sum is positive, renormalizes so the components sum
to 1; when the clamped sum is not positive the guarded division is
skipped and the clamped vector is returned unchanged. -/
theorem claim_C4_fallback_guarded (b : BVec6) :
    (0 < sum6 (clampNeg6 b) →
      nonneg6 (octFallbackNormalize b) ∧ sum6 (octFallbackNormalize b) = 1) ∧
      (sum6 (clampNeg6 b) ≤ 0 → octFallbackNormalize b = clampNeg6 b) :=
  ⟨octFallback_pos_good b, octFallback_nonpos_skip b⟩

theorem claim_C4_witness :
    ((0 : ℚ) < sum6 (clampNeg6 ⟨2, -1, 0, 0, 0, 0⟩)) ∧
      (nonneg6 (octFallbackNormalize ⟨2, -1, 0, 0, 0, 0⟩) ∧
        sum6 (octFallbackNormalize ⟨2, -1, 0, 0, 0, 0⟩) = 1) ∧
      (sum6 (clampNeg6 ⟨-1, 0, 0, 0, 0, -3⟩) ≤ 0) ∧
      octFallbackNormalize ⟨-1, 0, 0, 0, 0, -3⟩ = clampNeg6 ⟨-1, 0, 0, 0, 0, -3⟩ :=
  ⟨by norm_num [sum6, clampNeg6],
   (claim_C4_fallback_guarded ⟨2, -1, 0, 0, 0, 0⟩).1 (by norm_num [sum6, clampNeg6]),
   by norm_num [sum6, clampNeg6],
   (claim_C4_fallback_guarded ⟨-1, 0, 0, 0, 0, -3⟩).2 (by norm_num [sum6, clampNeg6])⟩

/-- Successful tetrahedron construction yields the homogeneous vertex matrix
and a genuine two-sided inverse. -/
theorem tet_new_spec (p1 p2 p3 p4 : Vec3) (T : TetrahedronProjector)
    (h : TetrahedronProjector.new? p1 p2 p3 p4 = some T) :
    T.from_barycentric = Mat4.fromColsHom p1 p2 p3 p4 ∧
      Mat4.mul T.from_barycentric T.to_barycentric = Mat4.one ∧
      Mat4.mul T.to_barycentric T.from_barycentric = Mat4.one := by
  unfold TetrahedronProjector.new? at h
  dsimp only at h
  rcases hinv : Mat4.tryInverse (Mat4.fromColsHom p1 p2 p3 p4) with _ | toB
  · rw [hinv] at h
    exact absurd h (by simp)
  · rw [hinv] at h
    simp only [Option.map_some'] at h
    obtain hmul := Mat4.tryInverse_mul_four _ _ hinv
    cases h
    exact ⟨rfl, hmul.1, hmul.2⟩

theorem fromColsHom_mulVec_c3 (p1 p2 p3 p4 : Vec3) (x : BVec4) :
    ((Mat4.fromColsHom p1 p2 p3 p4).mulVec x).c3 = sum4 x := by
  simp only [Mat4.fromColsHom, Mat4.mulVec, sum4]
  ring

theorem fromColsHom_mulVec_unit (p1 p2 p3 p4 : Vec3) :
    (Mat4.fromColsHom p1 p2 p3 p4).mulVec ⟨1, 0, 0, 0⟩ = p1.hom ∧
      (Mat4.fromColsHom p1 p2 p3 p4).mulVec ⟨0, 1, 0, 0⟩ = p2.hom ∧
      (Mat4.fromColsHom p1 p2 p3 p4).mulVec ⟨0, 0, 1, 0⟩ = p3.hom ∧
      (Mat4.fromColsHom p1 p2 p3 p4).mulVec ⟨0, 0, 0, 1⟩ = p4.hom := by
  refine ⟨?_, ?_, ?_, ?_⟩ <;>
    (simp only [Mat4.fromColsHom, Mat4.mulVec, Vec3.hom, BVec4.mk.injEq]
     refine ⟨by ring, by ring, by ring, by ring⟩)

/-- The barycentric output of a successfully constructed tetrahedron
projector sums to 1 at every point. -/
theorem tet_project_sum (p1 p2 p3 p4 : Vec3) (T : TetrahedronProjector)
    (h : TetrahedronProjector.new? p1 p2 p3 p4 = some T) (pt : Vec3) :
    sum4 (T.project pt) = 1 := by
  obtain ⟨hfb, hmul1, _⟩ := tet_new_spec p1 p2 p3 p4 T h
  have hround : T.from_barycentric.mulVec (T.to_barycentric.mulVec pt.hom) = pt.hom := by
    rw [← Mat4.mulVec_mul_four, hmul1, Mat4.one_mulVec_four]
  have h3 := congrArg BVec4.c3 hround
  rw [hfb, fromColsHom_mulVec_c3] at h3
  exact h3

/-- A successfully constructed tetrahedron projector maps each construction
vertex to the corresponding barycentric unit vector. -/
theorem tet_project_vertex (p1 p2 p3 p4 : Vec3) (T : TetrahedronProjector)
    (h : TetrahedronProjector.new? p1 p2 p3 p4 = some T) :
    T.project p1 = ⟨1, 0, 0, 0⟩ ∧ T.project p2 = ⟨0, 1, 0, 0⟩ ∧
      T.project p3 = ⟨0, 0, 1, 0⟩ ∧ T.project p4 = ⟨0, 0, 0, 1⟩ := by
  obtain ⟨hfb, _, hmul2⟩ := tet_new_spec p1 p2 p3 p4 T h
  have hu := fromColsHom_mulVec_unit p1 p2 p3 p4
  unfold TetrahedronProjector.project
  refine ⟨?_, ?_, ?_, ?_⟩
  · rw [← hu.1, ← hfb, ← Mat4.mulVec_mul_four, hmul2, Mat4.one_mulVec_four]
  · rw [← hu.2.1, ← hfb, ← Mat4.mulVec_mul_four, hmul2, Mat4.one_mulVec_four]
  · rw [← hu.2.2.1, ← hfb, ← Mat4.mulVec_mul_four, hmul2, Mat4.one_mulVec_four]
  · rw [← hu.2.2.2, ← hfb, ← Mat4.mulVec_mul_four, hmul2, Mat4.one_mulVec_four]

/-- Round trip through a successfully constructed tetrahedron projector is
the identity (the homogeneous weight of the result is exactly 1). -/
theorem tet_roundtrip (p1 p2 p3 p4 : Vec3) (T : TetrahedronProjector)
    (h : TetrahedronProjector.new? p1 p2 p3 p4 = some T) (pt : Vec3) :
    T.bary_to_point (T.project pt) = some pt := by
  obtain ⟨hfb, hmul1, _⟩ := tet_new_spec p1 p2 p3 p4 T h
  have hround : T.from_barycentric.mulVec (T.to_barycentric.mulVec pt.hom) = pt.hom := by
    rw [← Mat4.mulVec_mul_four, hmul1, Mat4.one_mulVec_four]
  unfold TetrahedronProjector.bary_to_point TetrahedronProjector.project
  dsimp only
  rw [show T.from_barycentric.mulVec (T.to_barycentric.mulVec pt.hom) = pt.hom from hround]
  rw [if_neg (by simp [Vec3.hom])]
  simp only [Vec3.hom, Option.some.injEq]
  cases pt
  simp

theorem dot_self_zero (v : Vec3) (h : v.dot v = 0) : v = ⟨0, 0, 0⟩ := by
  obtain ⟨x, y, z⟩ := v
  simp only [Vec3.dot] at h
  have hx : x * x = 0 :=
    le_antisymm (by nlinarith [mul_self_nonneg y, mul_self_nonneg z]) (mul_self_nonneg x)
  have hy : y * y = 0 :=
    le_antisymm (by nlinarith [mul_self_nonneg x, mul_self_nonneg z]) (mul_self_nonneg y)
  have hz : z * z = 0 :=
    le_antisymm (by nlinarith [mul_self_nonneg x, mul_self_nonneg y]) (mul_self_nonneg z)
  simp only [Vec3.mk.injEq]
  exact ⟨mul_self_eq_zero.mp hx, mul_self_eq_zero.mp hy, mul_self_eq_zero.mp hz⟩

/-- Round trip through a LineProjector is the identity on points of the
segment's own line (including both degenerate guard branches). -/
theorem line_roundtrip_on_line (a b : Vec3) (s : ℚ) (pt : Vec3)
    (hpt : pt = Vec3.add a (Vec3.smul s (Vec3.sub b a))) :
    (LineProjector.new a b).bary_to_point ((LineProjector.new a b).project pt) = pt := by
  subst hpt
  have hsub : Vec3.sub (Vec3.add a (Vec3.smul s (Vec3.sub b a))) a =
      Vec3.smul s (Vec3.sub b a) := by
    simp only [Vec3.sub, Vec3.add, Vec3.smul, Vec3.mk.injEq]
    refine ⟨by ring, by ring, by ring⟩
  unfold LineProjector.new LineProjector.project LineProjector.bary_to_point
  by_cases hz : (Vec3.sub b a).dot (Vec3.sub b a) = 0
  · rw [if_pos hz]
    have hd := dot_self_zero _ hz
    rw [hd]
    simp only [Vec3.add, Vec3.smul, Vec3.mk.injEq]
    refine ⟨by ring, by ring, by ring⟩
  · rw [if_neg hz]
    dsimp only
    rw [hsub]
    have hdot2 : (Vec3.smul s (Vec3.sub b a)).dot (Vec3.smul s (Vec3.sub b a)) =
        s * s * ((Vec3.sub b a).dot (Vec3.sub b a)) := by
      simp only [Vec3.smul, Vec3.dot]
      ring
    have hdot1 : (Vec3.smul s (Vec3.sub b a)).dot (Vec3.sub b a) =
        s * ((Vec3.sub b a).dot (Vec3.sub b a)) := by
      simp only [Vec3.smul, Vec3.dot]
      ring
    by_cases hs : s = 0
    · subst hs
      rw [if_pos (by simp only [hdot2]; ring)]
    · rw [if_neg (by simp only [hdot2]; exact mul_ne_zero (mul_ne_zero hs hs) hz)]
      dsimp only
      rw [hdot1, mul_div_assoc, div_self hz, mul_one]

/-- The ClippingTriangleProjector produced by a successful construction. -/
theorem ctp_new?_of_det (v1 v2 v3 : Vec3) (h : (triPremul v1 v2 v3).det ≠ 0) :
    ClippingTriangleProjector.new? v1 v2 v3 = some
      { vertices := Mat3.fromCols v1 v2 v3
        line0 := LineProjector.new v2 v3
        line1 := LineProjector.new v3 v1
        line2 := LineProjector.new v1 v2
        normal_project := triOf v1 v2 v3 } := by
  unfold ClippingTriangleProjector.new?
  rw [tri_new?_of_det v1 v2 v3 h]
  rfl

/-- Round trip through a successfully constructed ClippingTriangleProjector
is the identity on points of the triangle's own plane. -/
theorem ctp_roundtrip_on_plane (v1 v2 v3 : Vec3) (t : ClippingTriangleProjector)
    (hnew : ClippingTriangleProjector.new? v1 v2 v3 = some t) (al be : ℚ) (pt : Vec3)
    (hpt : pt = Vec3.add v1 (Vec3.add (Vec3.smul al (Vec3.sub v2 v1))
      (Vec3.smul be (Vec3.sub v3 v1)))) :
    t.bary_to_point (t.project pt) = pt := by
  unfold ClippingTriangleProjector.new? at hnew
  rcases hnp : TriangleProjector.new? v1 v2 v3 with _ | np
  · rw [hnp] at hnew
    exact absurd hnew (by simp)
  · rw [hnp] at hnew
    simp only [Option.map_some'] at hnew
    unfold TriangleProjector.new? at hnp
    rcases hinv : (triPremul v1 v2 v3).tryInverse with _ | inv
    · rw [hinv] at hnp
      exact absurd hnp (by simp)
    · rw [hinv] at hnp
      simp only [Option.map_some'] at hnp
      obtain hmul := (Mat3.tryInverse_mul _ _ hinv).2
      cases hnew
      cases hnp
      subst hpt
      unfold ClippingTriangleProjector.bary_to_point ClippingTriangleProjector.project
        TriangleProjector.project
      dsimp only
      have h11 := congrArg Mat3.m11 hmul
      have h12 := congrArg Mat3.m12 hmul
      have h21 := congrArg Mat3.m21 hmul
      have h22 := congrArg Mat3.m22 hmul
      simp only [Mat3.mul, Mat3.one, triPremul, Mat3.fromCols, Vec3.sub,
        Vec3.cross] at h11 h12 h21 h22
      have hu : Vec3.dot ⟨inv.m10, inv.m11, inv.m12⟩
          (Vec3.sub (Vec3.add v1 (Vec3.add (Vec3.smul al (Vec3.sub v2 v1))
            (Vec3.smul be (Vec3.sub v3 v1)))) v1) = al := by
        simp only [Vec3.dot, Vec3.sub, Vec3.add, Vec3.smul]
        linear_combination al * h11 + be * h12
      have hv : Vec3.dot ⟨inv.m20, inv.m21, inv.m22⟩
          (Vec3.sub (Vec3.add v1 (Vec3.add (Vec3.smul al (Vec3.sub v2 v1))
            (Vec3.smul be (Vec3.sub v3 v1)))) v1) = be := by
        simp only [Vec3.dot, Vec3.sub, Vec3.add, Vec3.smul]
        linear_combination al * h21 + be * h22
      rw [hu, hv]
      simp only [Mat3.mulBary, Mat3.fromCols, Vec3.add, Vec3.smul, Vec3.sub, Vec3.mk.injEq]
      refine ⟨by ring, by ring, by ring⟩

/-- C2 (counterexample): for a point off the segment's line, the line
round trip returns the orthogonal projection, not the point itself. -/
theorem claim_C2_counterexample :
    (LineProjector.new ⟨0, 0, 0⟩ ⟨1, 0, 0⟩).bary_to_point
        ((LineProjector.new ⟨0, 0, 0⟩ ⟨1, 0, 0⟩).project ⟨0, 1, 0⟩) = ⟨0, 0, 0⟩ ∧
      (⟨0, 0, 0⟩ : Vec3) ≠ ⟨0, 1, 0⟩ := by
  constructor
  · norm_num [LineProjector.new, LineProjector.project, LineProjector.bary_to_point,
      Vec3.sub, Vec3.dot, Vec3.add, Vec3.smul]
  · simp

/-- C2 (amended): the round trip `bary_to_point (project pt) = pt` holds for
the TetrahedronProjector at every point, and for the LineProjector and the
(Clipping)TriangleProjector exactly on the affine hull of their vertices:
for points on the segment's line respectively the triangle's plane. -/
theorem claim_C2_roundtrip_amended :
    (∀ (a b : Vec3) (s : ℚ) (pt : Vec3), pt = Vec3.add a (Vec3.smul s (Vec3.sub b a)) →
      (LineProjector.new a b).bary_to_point ((LineProjector.new a b).project pt) = pt) ∧
      (∀ (v1 v2 v3 : Vec3) (t : ClippingTriangleProjector),
        ClippingTriangleProjector.new? v1 v2 v3 = some t → ∀ (al be : ℚ) (pt : Vec3),
          pt = Vec3.add v1 (Vec3.add (Vec3.smul al (Vec3.sub v2 v1))
            (Vec3.smul be (Vec3.sub v3 v1))) →
          t.bary_to_point (t.project pt) = pt) ∧
      (∀ (p1 p2 p3 p4 : Vec3) (T : TetrahedronProjector),
        TetrahedronProjector.new? p1 p2 p3 p4 = some T → ∀ pt : Vec3,
          T.bary_to_point (T.project pt) = some pt) :=
  ⟨line_roundtrip_on_line,
   fun v1 v2 v3 t hnew al be pt hpt => ctp_roundtrip_on_plane v1 v2 v3 t hnew al be pt hpt,
   fun p1 p2 p3 p4 T hnew pt => tet_roundtrip p1 p2 p3 p4 T hnew pt⟩

/-- Three points are collinear when the cross product of the two edge
vectors from the first vanishes. -/
def collinear3 (a b c : Vec3) : Prop := (Vec3.sub b a).cross (Vec3.sub c a) = ⟨0, 0, 0⟩

/-- Four points are coplanar when the scalar triple product of the three
edge vectors from the first vanishes. -/
def coplanar4 (a b c d : Vec3) : Prop :=
  (Vec3.sub b a).dot ((Vec3.sub c a).cross (Vec3.sub d a)) = 0

/-- The determinant of the homogeneous vertex matrix is the (negated)
scalar triple product of the edge vectors. -/
theorem det4_fromColsHom (p1 p2 p3 p4 : Vec3) :
    (Mat4.fromColsHom p1 p2 p3 p4).det =
      -((Vec3.sub p2 p1).dot ((Vec3.sub p3 p1).cross (Vec3.sub p4 p1))) := by
  simp only [Mat4.det, Mat4.fromColsHom, Mat4.c00, Mat4.c01, Mat4.c02, Mat4.c03, det3x3,
    Vec3.sub, Vec3.cross, Vec3.dot]
  ring

/-- C9: construction from three collinear points (TriangleProjector and
ClippingTriangleProjector) or four coplanar points (TetrahedronProjector)
yields no projector: the unwrapped singular-matrix inversion panics,
modelled as `none` (no recoverable error value is produced). -/
theorem claim_C9_degenerate_construction_fails :
    (∀ v1 v2 v3 : Vec3, collinear3 v1 v2 v3 →
      TriangleProjector.new? v1 v2 v3 = none ∧
        ClippingTriangleProjector.new? v1 v2 v3 = none) ∧
      (∀ p1 p2 p3 p4 : Vec3, coplanar4 p1 p2 p3 p4 →
        TetrahedronProjector.new? p1 p2 p3 p4 = none) := by
  constructor
  · intro v1 v2 v3 h
    unfold collinear3 at h
    have hdet : (triPremul v1 v2 v3).det = 0 := by
      unfold triPremul
      rw [h]
      simp only [Mat3.det, Mat3.fromCols, Vec3.sub]
      ring
    have hnone : (triPremul v1 v2 v3).tryInverse = none := by
      unfold Mat3.tryInverse
      rw [if_pos hdet]
    constructor
    · unfold TriangleProjector.new?
      rw [hnone]
      rfl
    · unfold ClippingTriangleProjector.new? TriangleProjector.new?
      rw [hnone]
      rfl
  · intro p1 p2 p3 p4 h
    unfold coplanar4 at h
    have hdet : (Mat4.fromColsHom p1 p2 p3 p4).det = 0 := by
      rw [det4_fromColsHom, h]
      ring
    unfold TetrahedronProjector.new? Mat4.tryInverse
    dsimp only
    rw [if_pos hdet]
    rfl

theorem claim_C9_witness :
    collinear3 ⟨0, 0, 0⟩ ⟨1, 2, 0⟩ ⟨2, 4, 0⟩ ∧
      (TriangleProjector.new? ⟨0, 0, 0⟩ ⟨1, 2, 0⟩ ⟨2, 4, 0⟩ = none ∧
        ClippingTriangleProjector.new? ⟨0, 0, 0⟩ ⟨1, 2, 0⟩ ⟨2, 4, 0⟩ = none) ∧
      coplanar4 ⟨0, 0, 0⟩ ⟨1, 0, 0⟩ ⟨0, 1, 0⟩ ⟨1, 1, 0⟩ ∧
      TetrahedronProjector.new? ⟨0, 0, 0⟩ ⟨1, 0, 0⟩ ⟨0, 1, 0⟩ ⟨1, 1, 0⟩ = none :=
  ⟨by norm_num [collinear3, Vec3.cross, Vec3.sub],
   claim_C9_degenerate_construction_fails.1 ⟨0, 0, 0⟩ ⟨1, 2, 0⟩ ⟨2, 4, 0⟩
     (by norm_num [collinear3, Vec3.cross, Vec3.sub]),
   by norm_num [coplanar4, Vec3.cross, Vec3.sub, Vec3.dot],
   claim_C9_degenerate_construction_fails.2 ⟨0, 0, 0⟩ ⟨1, 0, 0⟩ ⟨0, 1, 0⟩ ⟨1, 1, 0⟩
     (by norm_num [coplanar4, Vec3.cross, Vec3.sub, Vec3.dot])⟩

/-- Successful octahedron construction records a successful tetrahedron
construction for each of the four wedges, over the wedge vertex indices
of octahedron.rs lines 46-53. -/
theorem oct_new_wedges (v : Fin 6 → Vec3) (o : OctahedronProjector)
    (h : OctahedronProjector.new? v = some o) :
    TetrahedronProjector.new? (v 0) (v 1) (v 2) (v 3) = some (o.wedges 0) ∧
      TetrahedronProjector.new? (v 0) (v 1) (v 3) (v 4) = some (o.wedges 1) ∧
      TetrahedronProjector.new? (v 0) (v 1) (v 4) (v 5) = some (o.wedges 2) ∧
      TetrahedronProjector.new? (v 0) (v 1) (v 5) (v 2) = some (o.wedges 3) := by
  unfold OctahedronProjector.new? at h
  simp only [Option.bind_eq_some, Option.map_eq_some'] at h
  obtain ⟨w0, hw0, w1, hw1, w2, hw2, w3, hw3, f0, hf0, f1, hf1, f2, hf2, f3, hf3, f4, hf4,
    f5, hf5, f6, hf6, f7, hf7, hstruct⟩ := h
  subst hstruct
  exact ⟨hw0, hw1, hw2, hw3⟩

theorem wedgeL2G_sum (i : Fin 4) (lb : BVec4) :
    sum6 (wedgeLocalToGlobal i lb) = sum4 lb := by
  fin_cases i <;> simp only [wedgeLocalToGlobal, sum6, sum4] <;> ring

theorem wedgeL2G_nonneg (i : Fin 4) (lb : BVec4) (h : nonneg4 lb) :
    nonneg6 (wedgeLocalToGlobal i lb) := by
  obtain ⟨h0, h1, h2, h3⟩ := h
  fin_cases i <;> simp only [wedgeLocalToGlobal, nonneg6] <;>
    exact ⟨by linarith, by linarith, by linarith, by linarith, by linarith, by linarith⟩

theorem faceL2G_sum (i : Fin 8) (lb : BVec3) :
    sum6 (faceLocalToGlobal i lb) = sum3 lb := by
  fin_cases i <;> simp only [faceLocalToGlobal, sum6, sum3] <;> ring

theorem faceL2G_nonneg (i : Fin 8) (lb : BVec3) (h : nonneg3 lb) :
    nonneg6 (faceLocalToGlobal i lb) := by
  obtain ⟨h0, h1, h2⟩ := h
  fin_cases i <;> simp only [faceLocalToGlobal, nonneg6] <;>
    exact ⟨by linarith, by linarith, by linarith, by linarith, by linarith, by linarith⟩

theorem edgeL2G_sum (i : Fin 12) (lb : BVec2) :
    sum6 (edgeLocalToGlobal i lb) = lb.c0 + lb.c1 := by
  fin_cases i <;> simp only [edgeLocalToGlobal, sum6] <;> ring

theorem edgeL2G_nonneg (i : Fin 12) (lb : BVec2) (h : nonneg2 lb) :
    nonneg6 (edgeLocalToGlobal i lb) := by
  obtain ⟨h0, h1⟩ := h
  fin_cases i <;> simp only [edgeLocalToGlobal, nonneg6] <;>
    exact ⟨by linarith, by linarith, by linarith, by linarith, by linarith, by linarith⟩

/-- An early face return out of a pole check carries nonnegative
coordinates summing to 1. -/
theorem poleCheck_error_good (o : OctahedronProjector) (pt : Vec3) (wi : Fin 4) (pole : Fin 2)
    (wb : BVec4) (flags : Fin 12 → Bool) (r : BVec6)
    (h : poleCheck o pt wi pole wb flags = .error r) : nonneg6 r ∧ sum6 r = 1 := by
  unfold poleCheck at h
  split at h
  · dsimp only at h
    split at h
    · rename_i hmin
      injection h with h
      subst h
      refine ⟨faceL2G_nonneg _ _ (min3_nonneg _ hmin), ?_⟩
      rw [faceL2G_sum]
      exact tri_project_sum _ _
    · exact absurd h (by simp)
  · exact absurd h (by simp)

/-- An early return out of a wedge step (wedge interior or clean face)
carries nonnegative coordinates summing to 1. -/
theorem wedgeStep_error_good (o : OctahedronProjector) (pt : Vec3) (i : Fin 4)
    (st : ScanState) (r : BVec6) (hsum : sum4 ((o.wedges i).project pt) = 1)
    (h : wedgeStep o pt i st = .error r) : nonneg6 r ∧ sum6 r = 1 := by
  unfold wedgeStep at h
  dsimp only at h
  split at h
  · rename_i hmin
    injection h with h
    subst h
    refine ⟨wedgeL2G_nonneg _ _ (min4_nonneg _ hmin), ?_⟩
    rw [wedgeL2G_sum]
    exact hsum
  · rcases hp0 : poleCheck o pt i 0 ((o.wedges i).project pt) st.edgesToCheck with r0 | flags1
    · rw [hp0] at h
      injection h with h
      subst h
      exact poleCheck_error_good o pt i 0 _ _ r0 hp0
    · rw [hp0] at h
      dsimp only at h
      rcases hp1 : poleCheck o pt i 1 ((o.wedges i).project pt) flags1 with r1 | flags2
      · rw [hp1] at h
        injection h with h
        subst h
        exact poleCheck_error_good o pt i 1 _ _ r1 hp1
      · rw [hp1] at h
        exact absurd h (by simp)

/-- Every best candidate retained by the wedge scan sums to 1. -/
def BestSumInv (st : ScanState) : Prop :=
  ∀ b : BVec6 × ℚ, st.best = some b → sum6 b.1 = 1

/-- A completed wedge step leaves a nonempty best candidate whose
barycentric vector sums to 1. -/
theorem wedgeStep_ok_best (o : OctahedronProjector) (pt : Vec3) (i : Fin 4)
    (st st' : ScanState) (hsum : sum4 ((o.wedges i).project pt) = 1)
    (hst : BestSumInv st) (h : wedgeStep o pt i st = .ok st') :
    BestSumInv st' ∧ st'.best.isSome = true := by
  unfold wedgeStep at h
  dsimp only at h
  split at h
  · exact absurd h (by simp)
  · rcases hp0 : poleCheck o pt i 0 ((o.wedges i).project pt) st.edgesToCheck with r0 | flags1
    · rw [hp0] at h
      exact absurd h (by simp)
    · rw [hp0] at h
      dsimp only at h
      rcases hp1 : poleCheck o pt i 1 ((o.wedges i).project pt) flags1 with r1 | flags2
      · rw [hp1] at h
        exact absurd h (by simp)
      · rw [hp1] at h
        dsimp only at h
        injection h with h
        subst h
        dsimp only
        split
        · constructor
          · intro b hb
            injection hb with hb
            subst hb
            rw [wedgeL2G_sum]
            exact hsum
          · rfl
        · rename_i hcond
          rcases hbest : st.best with _ | b
          · rw [hbest] at hcond
            exact absurd rfl hcond
          · constructor
            · intro c hc
              dsimp only at hc
              injection hc with hc
              subst hc
              exact hst b hbest
            · rfl

/-- The marked-edge loop preserves goodness of the accumulator: every
candidate it installs is a remapped clipped line projection. -/
theorem edgeLoop_good (o : OctahedronProjector) (pt : Vec3) (flags : Fin 12 → Bool)
    (l : List (Fin 12)) (acc : Option (BVec6 × ℚ))
    (hacc : ∀ b : BVec6 × ℚ, acc = some b → nonneg6 b.1 ∧ sum6 b.1 = 1) :
    ∀ b : BVec6 × ℚ, edgeLoop o pt flags l acc = some b → nonneg6 b.1 ∧ sum6 b.1 = 1 := by
  induction l generalizing acc with
  | nil =>
    intro b hb
    unfold edgeLoop at hb
    exact hacc b hb
  | cons j rest ih =>
    intro b hb
    unfold edgeLoop at hb
    split at hb
    · dsimp only at hb
      refine ih _ ?_ b hb
      intro c hc
      split at hc
      · injection hc with hc
        subst hc
        have hl := line_clipping_good (o.edges j) pt
        refine ⟨edgeL2G_nonneg _ _ hl.1, ?_⟩
        rw [edgeL2G_sum]
        exact hl.2
      · exact hacc c hc
    · exact ih acc hacc b hb

/-- The marked-edge loop returns a candidate whenever it starts with one or
some listed edge is marked. -/
theorem edgeLoop_isSome (o : OctahedronProjector) (pt : Vec3) (flags : Fin 12 → Bool)
    (l : List (Fin 12)) (acc : Option (BVec6 × ℚ))
    (h : acc.isSome = true ∨ ∃ j ∈ l, flags j = true) :
    (edgeLoop o pt flags l acc).isSome = true := by
  induction l generalizing acc with
  | nil =>
    unfold edgeLoop
    rcases h with h | ⟨j, hj, _⟩
    · exact h
    · exact absurd hj (by simp)
  | cons j rest ih =>
    unfold edgeLoop
    split
    · dsimp only
      apply ih
      left
      split
      · rfl
      · rename_i hcond
        rcases hacc : acc with _ | b
        · rw [hacc] at hcond
          exact absurd rfl hcond
        · rfl
    · rename_i hflag
      apply ih
      rcases h with h | ⟨k, hk, hkt⟩
      · exact Or.inl h
      · rcases List.mem_cons.mp hk with hk | hk
        · subst hk
          exact absurd hkt hflag
        · exact Or.inr ⟨k, hk, hkt⟩

/-- The projection invariant: the result exists (no panic) and is a
nonnegative barycentric vector summing to 1. -/
def projectOutputOK (o : OctahedronProjector) (pt : Vec3) : Prop :=
  match o.project pt with
  | some r => nonneg6 r ∧ sum6 r = 1
  | none => False

theorem oct_project_good (v : Fin 6 → Vec3) (o : OctahedronProjector) (pt : Vec3)
    (h : OctahedronProjector.new? v = some o) :
    ∃ r, o.project pt = some r ∧ nonneg6 r ∧ sum6 r = 1 := by
  obtain ⟨hw0, hw1, hw2, hw3⟩ := oct_new_wedges v o h
  have hs0 := tet_project_sum _ _ _ _ _ hw0 pt
  have hs1 := tet_project_sum _ _ _ _ _ hw1 pt
  have hs2 := tet_project_sum _ _ _ _ _ hw2 pt
  have hs3 := tet_project_sum _ _ _ _ _ hw3 pt
  unfold OctahedronProjector.project
  dsimp only
  rcases hst1 : wedgeStep o pt 0 ⟨fun _ => false, none⟩ with r | st1
  · exact ⟨r, rfl, wedgeStep_error_good o pt 0 _ r hs0 hst1⟩
  · obtain ⟨hb1, hsome1⟩ := wedgeStep_ok_best o pt 0 _ st1 hs0
      (fun b hb => absurd hb (by simp)) hst1
    dsimp only
    rcases hst2 : wedgeStep o pt 1 st1 with r | st2
    · exact ⟨r, rfl, wedgeStep_error_good o pt 1 st1 r hs1 hst2⟩
    · obtain ⟨hb2, hsome2⟩ := wedgeStep_ok_best o pt 1 st1 st2 hs1 hb1 hst2
      dsimp only
      rcases hst3 : wedgeStep o pt 2 st2 with r | st3
      · exact ⟨r, rfl, wedgeStep_error_good o pt 2 st2 r hs2 hst3⟩
      · obtain ⟨hb3, hsome3⟩ := wedgeStep_ok_best o pt 2 st2 st3 hs2 hb2 hst3
        dsimp only
        rcases hst4 : wedgeStep o pt 3 st3 with r | st4
        · exact ⟨r, rfl, wedgeStep_error_good o pt 3 st3 r hs3 hst4⟩
        · obtain ⟨hb4, hsome4⟩ := wedgeStep_ok_best o pt 3 st3 st4 hs3 hb3 hst4
          dsimp only
          rcases hcheck : (List.finRange 12).all fun j => ! st4.edgesToCheck j with _ | _
          · -- some edge is marked: the edge loop runs
            have hex : ∃ j ∈ List.finRange 12, st4.edgesToCheck j = true := by
              have hall := hcheck
              simp only [List.all_eq_false] at hall
              obtain ⟨j, hj, hjt⟩ := hall
              exact ⟨j, hj, by simpa using hjt⟩
            rw [if_neg (by simp)]
            rcases hloop : edgeLoop o pt st4.edgesToCheck (List.finRange 12) none with _ | b
            · have hsome := edgeLoop_isSome o pt st4.edgesToCheck (List.finRange 12) none
                (Or.inr hex)
              rw [hloop] at hsome
              exact absurd hsome (by simp)
            · refine ⟨b.1, rfl, ?_⟩
              
              exact edgeLoop_good o pt st4.edgesToCheck (List.finRange 12) none
                (fun c hc => absurd hc (by simp)) b hloop
          · -- no edge is marked: the guarded fallback runs
            rw [if_pos rfl]
            rcases hbest : st4.best with _ | b
            · rw [hbest] at hsome4
              exact absurd hsome4 (by simp)
            · have hsumb : sum6 b.1 = 1 := hb4 b (by rw [hbest])
              have hclamp : 0 < sum6 (clampNeg6 b.1) := by
                have := sum6_le_clampNeg6 b.1
                linarith
              exact ⟨octFallbackNormalize b.1, rfl, octFallback_pos_good b.1 hclamp⟩

/-- C1: for every successfully constructed OctahedronProjector and every
point, project returns (without panicking) a 6-component barycentric
vector with all components nonnegative summing to 1, on the wedge
interior path, the clean face path, the marked-edge path and the
clamp-and-renormalize fallback alike. -/
theorem claim_C1_octahedron_project_invariant (v : Fin 6 → Vec3) (o : OctahedronProjector)
    (pt : Vec3) (h : OctahedronProjector.new? v = some o) : projectOutputOK o pt := by
  obtain ⟨r, hr, hg⟩ := oct_project_good v o pt h
  unfold projectOutputOK
  rw [hr]
  exact hg

/-- C5: a barycentric vector summing exactly to 1 keeps a clamped sum of at
least 1 (3- and 6-component versions); hence the baseline renormalization
divisor of ClippingTriangleProjector::clipping_project is never zero, and
for a successfully constructed octahedron every retained wedge candidate
has positive clamped sum, so the guarded `sum <= 0` fallback branch is
unreachable in exact arithmetic. -/
theorem claim_C5_clamped_sum_at_least_one :
    (∀ b : BVec3, sum3 b = 1 → 1 ≤ sum3 (clamp3 b)) ∧
      (∀ b : BVec6, sum6 b = 1 → 1 ≤ sum6 (clampNeg6 b)) ∧
      (∀ (t : ClippingTriangleProjector) (pt : Vec3),
        sum3 (clamp3 (t.project pt)) ≠ 0) ∧
      (∀ (v : Fin 6 → Vec3) (o : OctahedronProjector),
        OctahedronProjector.new? v = some o → ∀ (i : Fin 4) (pt : Vec3),
          0 < sum6 (clampNeg6 (wedgeLocalToGlobal i ((o.wedges i).project pt)))) := by
  refine ⟨?_, ?_, ?_, ?_⟩
  · intro b hb
    have := sum3_le_clamp3 b
    linarith
  · intro b hb
    have := sum6_le_clampNeg6 b
    linarith
  · intro t pt
    have := ctp_clamp_sum_ge_one t pt
    linarith
  · intro v o h i pt
    obtain ⟨hw0, hw1, hw2, hw3⟩ := oct_new_wedges v o h
    have hsum : sum6 (wedgeLocalToGlobal i ((o.wedges i).project pt)) = 1 := by
      rw [wedgeL2G_sum]
      fin_cases i
      · exact tet_project_sum _ _ _ _ _ hw0 pt
      · exact tet_project_sum _ _ _ _ _ hw1 pt
      · exact tet_project_sum _ _ _ _ _ hw2 pt
      · exact tet_project_sum _ _ _ _ _ hw3 pt
    have := sum6_le_clampNeg6 (wedgeLocalToGlobal i ((o.wedges i).project pt))
    linarith

/-- A successfully constructed octahedron projects each of vertices 0-3
(both poles and the first two equatorial vertices) to the corresponding
one-hot vector: wedge 0 contains all four, so its interior fast path
returns before any face check can intervene. -/
theorem oct_first_four_vertices_one_hot (v : Fin 6 → Vec3) (o : OctahedronProjector)
    (h : OctahedronProjector.new? v = some o) :
    o.project (v 0) = some ⟨1, 0, 0, 0, 0, 0⟩ ∧
      o.project (v 1) = some ⟨0, 1, 0, 0, 0, 0⟩ ∧
      o.project (v 2) = some ⟨0, 0, 1, 0, 0, 0⟩ ∧
      o.project (v 3) = some ⟨0, 0, 0, 1, 0, 0⟩ := by
  obtain ⟨hw0, _, _, _⟩ := oct_new_wedges v o h
  obtain ⟨hv0, hv1, hv2, hv3⟩ := tet_project_vertex _ _ _ _ _ hw0
  refine ⟨?_, ?_, ?_, ?_⟩ <;>
    (unfold OctahedronProjector.project
     dsimp only)
  · rw [show wedgeStep o (v 0) 0 ⟨fun _ => false, none⟩ =
        .error (wedgeLocalToGlobal 0 ⟨1, 0, 0, 0⟩) from by
      unfold wedgeStep
      rw [hv0]
      rw [if_pos (by norm_num [min4])]]
    rfl
  · rw [show wedgeStep o (v 1) 0 ⟨fun _ => false, none⟩ =
        .error (wedgeLocalToGlobal 0 ⟨0, 1, 0, 0⟩) from by
      unfold wedgeStep
      rw [hv1]
      rw [if_pos (by norm_num [min4])]]
    rfl
  · rw [show wedgeStep o (v 2) 0 ⟨fun _ => false, none⟩ =
        .error (wedgeLocalToGlobal 0 ⟨0, 0, 1, 0⟩) from by
      unfold wedgeStep
      rw [hv2]
      rw [if_pos (by norm_num [min4])]]
    rfl
  · rw [show wedgeStep o (v 3) 0 ⟨fun _ => false, none⟩ =
        .error (wedgeLocalToGlobal 0 ⟨0, 0, 0, 1⟩) from by
      unfold wedgeStep
      rw [hv3]
      rw [if_pos (by norm_num [min4])]]
    rfl

def skewVerts : Fin 6 → Vec3
  | 0 => ⟨0, 0, 1⟩
  | 1 => ⟨0, 0, -1⟩
  | 2 => ⟨1, 0, 0⟩
  | 3 => ⟨0, 1, 0⟩
  | 4 => ⟨3/10, 3/10, -4/5⟩
  | 5 => ⟨0, -1, 0⟩

def skewOct : OctahedronProjector :=
  { wedges := ![tetOf ⟨0, 0, 1⟩ ⟨0, 0, -1⟩ ⟨1, 0, 0⟩ ⟨0, 1, 0⟩,
      tetOf ⟨0, 0, 1⟩ ⟨0, 0, -1⟩ ⟨0, 1, 0⟩ ⟨3/10, 3/10, -4/5⟩,
      tetOf ⟨0, 0, 1⟩ ⟨0, 0, -1⟩ ⟨3/10, 3/10, -4/5⟩ ⟨0, -1, 0⟩,
      tetOf ⟨0, 0, 1⟩ ⟨0, 0, -1⟩ ⟨0, -1, 0⟩ ⟨1, 0, 0⟩]
    faces := ![triOf ⟨0, 0, 1⟩ ⟨1, 0, 0⟩ ⟨0, 1, 0⟩,
      triOf ⟨0, 0, 1⟩ ⟨0, 1, 0⟩ ⟨3/10, 3/10, -4/5⟩,
      triOf ⟨0, 0, 1⟩ ⟨3/10, 3/10, -4/5⟩ ⟨0, -1, 0⟩,
      triOf ⟨0, 0, 1⟩ ⟨0, -1, 0⟩ ⟨1, 0, 0⟩,
      triOf ⟨0, 0, -1⟩ ⟨1, 0, 0⟩ ⟨0, 1, 0⟩,
      triOf ⟨0, 0, -1⟩ ⟨0, 1, 0⟩ ⟨3/10, 3/10, -4/5⟩,
      triOf ⟨0, 0, -1⟩ ⟨3/10, 3/10, -4/5⟩ ⟨0, -1, 0⟩,
      triOf ⟨0, 0, -1⟩ ⟨0, -1, 0⟩ ⟨1, 0, 0⟩]
    edges := fun i => octEdge skewVerts i }

theorem skewOct_new : OctahedronProjector.new? skewVerts = some skewOct := by
  unfold OctahedronProjector.new?
  rw [show skewVerts 0 = ⟨0, 0, 1⟩ from rfl, show skewVerts 1 = ⟨0, 0, -1⟩ from rfl,
    show skewVerts 2 = ⟨1, 0, 0⟩ from rfl, show skewVerts 3 = ⟨0, 1, 0⟩ from rfl,
    show skewVerts 4 = ⟨3/10, 3/10, -4/5⟩ from rfl, show skewVerts 5 = ⟨0, -1, 0⟩ from rfl]
  rw [tet_new?_of_det _ _ _ _ (by norm_num [Mat4.det, Mat4.fromColsHom, Mat4.c00, Mat4.c01,
        Mat4.c02, Mat4.c03, det3x3]),
    tet_new?_of_det _ _ _ _ (by norm_num [Mat4.det, Mat4.fromColsHom, Mat4.c00, Mat4.c01,
        Mat4.c02, Mat4.c03, det3x3]),
    tet_new?_of_det _ _ _ _ (by norm_num [Mat4.det, Mat4.fromColsHom, Mat4.c00, Mat4.c01,
        Mat4.c02, Mat4.c03, det3x3]),
    tet_new?_of_det _ _ _ _ (by norm_num [Mat4.det, Mat4.fromColsHom, Mat4.c00, Mat4.c01,
        Mat4.c02, Mat4.c03, det3x3]),
    tri_new?_of_det _ _ _ (by norm_num [Mat3.det, triPremul, Mat3.fromCols, Vec3.sub, Vec3.cross]),
    tri_new?_of_det _ _ _ (by norm_num [Mat3.det, triPremul, Mat3.fromCols, Vec3.sub, Vec3.cross]),
    tri_new?_of_det _ _ _ (by norm_num [Mat3.det, triPremul, Mat3.fromCols, Vec3.sub, Vec3.cross]),
    tri_new?_of_det _ _ _ (by norm_num [Mat3.det, triPremul, Mat3.fromCols, Vec3.sub, Vec3.cross]),
    tri_new?_of_det _ _ _ (by norm_num [Mat3.det, triPremul, Mat3.fromCols, Vec3.sub, Vec3.cross]),
    tri_new?_of_det _ _ _ (by norm_num [Mat3.det, triPremul, Mat3.fromCols, Vec3.sub, Vec3.cross]),
    tri_new?_of_det _ _ _ (by norm_num [Mat3.det, triPremul, Mat3.fromCols, Vec3.sub, Vec3.cross]),
    tri_new?_of_det _ _ _ (by norm_num [Mat3.det, triPremul, Mat3.fromCols, Vec3.sub, Vec3.cross])]
  rfl

theorem skew_w0_proj : (skewOct.wedges 0).project ⟨3/10, 3/10, -4/5⟩ =
    ⟨-1/5, 3/5, 3/10, 3/10⟩ := by
  rw [show skewOct.wedges 0 = tetOf ⟨0, 0, 1⟩ ⟨0, 0, -1⟩ ⟨1, 0, 0⟩ ⟨0, 1, 0⟩ from rfl]
  norm_num [tetOf, TetrahedronProjector.project, Mat4.invRaw, Mat4.det, Mat4.fromColsHom,
    Mat4.mulVec, Mat4.c00, Mat4.c01, Mat4.c02, Mat4.c03, Mat4.c10, Mat4.c11, Mat4.c12,
    Mat4.c13, Mat4.c20, Mat4.c21, Mat4.c22, Mat4.c23, Mat4.c30, Mat4.c31, Mat4.c32,
    Mat4.c33, det3x3, Vec3.hom]

theorem skew_f4_proj (pf : (1 - (0 : Fin 2).val) * 4 + (0 : Fin 4).val < 8) :
    (skewOct.faces ⟨(1 - (0 : Fin 2).val) * 4 + (0 : Fin 4).val, pf⟩).project
      ⟨3/10, 3/10, -4/5⟩ = ⟨2/3, 1/6, 1/6⟩ := by
  rw [show skewOct.faces ⟨(1 - (0 : Fin 2).val) * 4 + (0 : Fin 4).val, pf⟩ =
    triOf ⟨0, 0, -1⟩ ⟨1, 0, 0⟩ ⟨0, 1, 0⟩ from rfl]
  norm_num [triOf, TriangleProjector.project, Mat3.invRaw, Mat3.det, triPremul,
    Mat3.fromCols, Vec3.sub, Vec3.cross, Vec3.dot]

theorem skew_wstep0 : wedgeStep skewOct ⟨3/10, 3/10, -4/5⟩ 0 ⟨fun _ => false, none⟩ =
    .error ⟨0, 2/3, 1/6, 1/6, 0, 0⟩ := by
  unfold wedgeStep
  dsimp only
  rw [skew_w0_proj]
  rw [show min4 ⟨-1/5, 3/5, 3/10, 3/10⟩ = -1/5 from by norm_num [min4]]
  rw [if_neg (by norm_num)]
  unfold poleCheck
  rw [if_pos (show BVec4.get ⟨-1/5, 3/5, 3/10, 3/10⟩ ⟨(0 : Fin 2).val, by omega⟩ ≤ 0 from
    by norm_num [BVec4.get])]
  dsimp only
  rw [skew_f4_proj]
  rw [if_pos (show min3 ⟨2/3, 1/6, 1/6⟩ ≥ 0 from by norm_num [min3])]
  rfl

/-- C8 (counterexample): for a successfully constructed but skewed
octahedron, projecting the fifth construction vertex (equatorial slot 4)
returns a clean face projection onto an earlier wedge's outer face, not
the one-hot vector for slot 4. -/
theorem claim_C8_counterexample :
    OctahedronProjector.new? skewVerts = some skewOct ∧
      skewOct.project (skewVerts 4) = some ⟨0, 2/3, 1/6, 1/6, 0, 0⟩ ∧
      (⟨0, 2/3, 1/6, 1/6, 0, 0⟩ : BVec6) ≠ ⟨0, 0, 0, 0, 1, 0⟩ := by
  refine ⟨skewOct_new, ?_, by simp⟩
  rw [show skewVerts 4 = ⟨3/10, 3/10, -4/5⟩ from rfl]
  unfold OctahedronProjector.project
  dsimp only
  rw [skew_wstep0]

def stdVerts : Fin 6 → Vec3
  | 0 => ⟨0, 0, 1⟩
  | 1 => ⟨0, 0, -1⟩
  | 2 => ⟨1, 0, 0⟩
  | 3 => ⟨0, 1, 0⟩
  | 4 => ⟨-1, 0, 0⟩
  | 5 => ⟨0, -1, 0⟩

def stdOct : OctahedronProjector :=
  { wedges := ![tetOf ⟨0, 0, 1⟩ ⟨0, 0, -1⟩ ⟨1, 0, 0⟩ ⟨0, 1, 0⟩,
      tetOf ⟨0, 0, 1⟩ ⟨0, 0, -1⟩ ⟨0, 1, 0⟩ ⟨-1, 0, 0⟩,
      tetOf ⟨0, 0, 1⟩ ⟨0, 0, -1⟩ ⟨-1, 0, 0⟩ ⟨0, -1, 0⟩,
      tetOf ⟨0, 0, 1⟩ ⟨0, 0, -1⟩ ⟨0, -1, 0⟩ ⟨1, 0, 0⟩]
    faces := ![triOf ⟨0, 0, 1⟩ ⟨1, 0, 0⟩ ⟨0, 1, 0⟩,
      triOf ⟨0, 0, 1⟩ ⟨0, 1, 0⟩ ⟨-1, 0, 0⟩,
      triOf ⟨0, 0, 1⟩ ⟨-1, 0, 0⟩ ⟨0, -1, 0⟩,
      triOf ⟨0, 0, 1⟩ ⟨0, -1, 0⟩ ⟨1, 0, 0⟩,
      triOf ⟨0, 0, -1⟩ ⟨1, 0, 0⟩ ⟨0, 1, 0⟩,
      triOf ⟨0, 0, -1⟩ ⟨0, 1, 0⟩ ⟨-1, 0, 0⟩,
      triOf ⟨0, 0, -1⟩ ⟨-1, 0, 0⟩ ⟨0, -1, 0⟩,
      triOf ⟨0, 0, -1⟩ ⟨0, -1, 0⟩ ⟨1, 0, 0⟩]
    edges := fun i => octEdge stdVerts i }

theorem stdOct_new : OctahedronProjector.new? stdVerts = some stdOct := by
  unfold OctahedronProjector.new?
  rw [show stdVerts 0 = ⟨0, 0, 1⟩ from rfl, show stdVerts 1 = ⟨0, 0, -1⟩ from rfl,
    show stdVerts 2 = ⟨1, 0, 0⟩ from rfl, show stdVerts 3 = ⟨0, 1, 0⟩ from rfl,
    show stdVerts 4 = ⟨-1, 0, 0⟩ from rfl, show stdVerts 5 = ⟨0, -1, 0⟩ from rfl]
  rw [tet_new?_of_det _ _ _ _ (by norm_num [Mat4.det, Mat4.fromColsHom, Mat4.c00, Mat4.c01,
        Mat4.c02, Mat4.c03, det3x3]),
    tet_new?_of_det _ _ _ _ (by norm_num [Mat4.det, Mat4.fromColsHom, Mat4.c00, Mat4.c01,
        Mat4.c02, Mat4.c03, det3x3]),
    tet_new?_of_det _ _ _ _ (by norm_num [Mat4.det, Mat4.fromColsHom, Mat4.c00, Mat4.c01,
        Mat4.c02, Mat4.c03, det3x3]),
    tet_new?_of_det _ _ _ _ (by norm_num [Mat4.det, Mat4.fromColsHom, Mat4.c00, Mat4.c01,
        Mat4.c02, Mat4.c03, det3x3]),
    tri_new?_of_det _ _ _ (by norm_num [Mat3.det, triPremul, Mat3.fromCols, Vec3.sub, Vec3.cross]),
    tri_new?_of_det _ _ _ (by norm_num [Mat3.det, triPremul, Mat3.fromCols, Vec3.sub, Vec3.cross]),
    tri_new?_of_det _ _ _ (by norm_num [Mat3.det, triPremul, Mat3.fromCols, Vec3.sub, Vec3.cross]),
    tri_new?_of_det _ _ _ (by norm_num [Mat3.det, triPremul, Mat3.fromCols, Vec3.sub, Vec3.cross]),
    tri_new?_of_det _ _ _ (by norm_num [Mat3.det, triPremul, Mat3.fromCols, Vec3.sub, Vec3.cross]),
    tri_new?_of_det _ _ _ (by norm_num [Mat3.det, triPremul, Mat3.fromCols, Vec3.sub, Vec3.cross]),
    tri_new?_of_det _ _ _ (by norm_num [Mat3.det, triPremul, Mat3.fromCols, Vec3.sub, Vec3.cross]),
    tri_new?_of_det _ _ _ (by norm_num [Mat3.det, triPremul, Mat3.fromCols, Vec3.sub, Vec3.cross])]
  rfl

theorem std_w0_proj_mid : (stdOct.wedges 0).project ⟨1/2, 1/2, 0⟩ = ⟨0, 0, 1/2, 1/2⟩ := by
  rw [show stdOct.wedges 0 = tetOf ⟨0, 0, 1⟩ ⟨0, 0, -1⟩ ⟨1, 0, 0⟩ ⟨0, 1, 0⟩ from rfl]
  norm_num [tetOf, TetrahedronProjector.project, Mat4.invRaw, Mat4.det, Mat4.fromColsHom,
    Mat4.mulVec, Mat4.c00, Mat4.c01, Mat4.c02, Mat4.c03, Mat4.c10, Mat4.c11, Mat4.c12,
    Mat4.c13, Mat4.c20, Mat4.c21, Mat4.c22, Mat4.c23, Mat4.c30, Mat4.c31, Mat4.c32,
    Mat4.c33, det3x3, Vec3.hom]

theorem std_project_mid : stdOct.project ⟨1/2, 1/2, 0⟩ = some ⟨0, 0, 1/2, 1/2, 0, 0⟩ := by
  unfold OctahedronProjector.project
  dsimp only
  rw [show wedgeStep stdOct ⟨1/2, 1/2, 0⟩ 0 ⟨fun _ => false, none⟩ =
      .error ⟨0, 0, 1/2, 1/2, 0, 0⟩ from by
    unfold wedgeStep
    dsimp only
    rw [std_w0_proj_mid]
    rw [if_pos (show min4 ⟨0, 0, 1/2, 1/2⟩ ≥ 0 from by norm_num [min4])]
    rfl]

theorem std_w0_top : (stdOct.wedges 0).project ⟨0, 0, 2⟩ = ⟨3/2, -1/2, 0, 0⟩ := by
  rw [show stdOct.wedges 0 = tetOf ⟨0, 0, 1⟩ ⟨0, 0, -1⟩ ⟨1, 0, 0⟩ ⟨0, 1, 0⟩ from rfl]
  norm_num [tetOf, TetrahedronProjector.project, Mat4.invRaw, Mat4.det, Mat4.fromColsHom,
    Mat4.mulVec, Mat4.c00, Mat4.c01, Mat4.c02, Mat4.c03, Mat4.c10, Mat4.c11, Mat4.c12,
    Mat4.c13, Mat4.c20, Mat4.c21, Mat4.c22, Mat4.c23, Mat4.c30, Mat4.c31, Mat4.c32,
    Mat4.c33, det3x3, Vec3.hom]

theorem std_w1_top : (stdOct.wedges 1).project ⟨0, 0, 2⟩ = ⟨3/2, -1/2, 0, 0⟩ := by
  rw [show stdOct.wedges 1 = tetOf ⟨0, 0, 1⟩ ⟨0, 0, -1⟩ ⟨0, 1, 0⟩ ⟨-1, 0, 0⟩ from rfl]
  norm_num [tetOf, TetrahedronProjector.project, Mat4.invRaw, Mat4.det, Mat4.fromColsHom,
    Mat4.mulVec, Mat4.c00, Mat4.c01, Mat4.c02, Mat4.c03, Mat4.c10, Mat4.c11, Mat4.c12,
    Mat4.c13, Mat4.c20, Mat4.c21, Mat4.c22, Mat4.c23, Mat4.c30, Mat4.c31, Mat4.c32,
    Mat4.c33, det3x3, Vec3.hom]

theorem std_w2_top : (stdOct.wedges 2).project ⟨0, 0, 2⟩ = ⟨3/2, -1/2, 0, 0⟩ := by
  rw [show stdOct.wedges 2 = tetOf ⟨0, 0, 1⟩ ⟨0, 0, -1⟩ ⟨-1, 0, 0⟩ ⟨0, -1, 0⟩ from rfl]
  norm_num [tetOf, TetrahedronProjector.project, Mat4.invRaw, Mat4.det, Mat4.fromColsHom,
    Mat4.mulVec, Mat4.c00, Mat4.c01, Mat4.c02, Mat4.c03, Mat4.c10, Mat4.c11, Mat4.c12,
    Mat4.c13, Mat4.c20, Mat4.c21, Mat4.c22, Mat4.c23, Mat4.c30, Mat4.c31, Mat4.c32,
    Mat4.c33, det3x3, Vec3.hom]

theorem std_w3_top : (stdOct.wedges 3).project ⟨0, 0, 2⟩ = ⟨3/2, -1/2, 0, 0⟩ := by
  rw [show stdOct.wedges 3 = tetOf ⟨0, 0, 1⟩ ⟨0, 0, -1⟩ ⟨0, -1, 0⟩ ⟨1, 0, 0⟩ from rfl]
  norm_num [tetOf, TetrahedronProjector.project, Mat4.invRaw, Mat4.det, Mat4.fromColsHom,
    Mat4.mulVec, Mat4.c00, Mat4.c01, Mat4.c02, Mat4.c03, Mat4.c10, Mat4.c11, Mat4.c12,
    Mat4.c13, Mat4.c20, Mat4.c21, Mat4.c22, Mat4.c23, Mat4.c30, Mat4.c31, Mat4.c32,
    Mat4.c33, det3x3, Vec3.hom]

theorem std_pc0_top (i : Fin 4) (flags : Fin 12 → Bool) :
    poleCheck stdOct ⟨0, 0, 2⟩ i 0 ⟨3/2, -1/2, 0, 0⟩ flags = .ok flags := by
  unfold poleCheck
  rw [if_neg (show ¬(BVec4.get ⟨3/2, -1/2, 0, 0⟩
    ⟨(0 : Fin 2).val, by omega⟩ ≤ 0) from by norm_num [BVec4.get])]

theorem std_f0_top (pf : (1 - (1 : Fin 2).val) * 4 + (0 : Fin 4).val < 8) :
    (stdOct.faces ⟨(1 - (1 : Fin 2).val) * 4 + (0 : Fin 4).val, pf⟩).project ⟨0, 0, 2⟩ =
      ⟨5/3, -1/3, -1/3⟩ := by
  rw [show stdOct.faces ⟨(1 - (1 : Fin 2).val) * 4 + (0 : Fin 4).val, pf⟩ =
    triOf ⟨0, 0, 1⟩ ⟨1, 0, 0⟩ ⟨0, 1, 0⟩ from rfl]
  norm_num [triOf, TriangleProjector.project, Mat3.invRaw, Mat3.det, triPremul,
    Mat3.fromCols, Vec3.sub, Vec3.cross, Vec3.dot]

theorem std_f1_top (pf : (1 - (1 : Fin 2).val) * 4 + (1 : Fin 4).val < 8) :
    (stdOct.faces ⟨(1 - (1 : Fin 2).val) * 4 + (1 : Fin 4).val, pf⟩).project ⟨0, 0, 2⟩ =
      ⟨5/3, -1/3, -1/3⟩ := by
  rw [show stdOct.faces ⟨(1 - (1 : Fin 2).val) * 4 + (1 : Fin 4).val, pf⟩ =
    triOf ⟨0, 0, 1⟩ ⟨0, 1, 0⟩ ⟨-1, 0, 0⟩ from rfl]
  norm_num [triOf, TriangleProjector.project, Mat3.invRaw, Mat3.det, triPremul,
    Mat3.fromCols, Vec3.sub, Vec3.cross, Vec3.dot]

theorem std_f2_top (pf : (1 - (1 : Fin 2).val) * 4 + (2 : Fin 4).val < 8) :
    (stdOct.faces ⟨(1 - (1 : Fin 2).val) * 4 + (2 : Fin 4).val, pf⟩).project ⟨0, 0, 2⟩ =
      ⟨5/3, -1/3, -1/3⟩ := by
  rw [show stdOct.faces ⟨(1 - (1 : Fin 2).val) * 4 + (2 : Fin 4).val, pf⟩ =
    triOf ⟨0, 0, 1⟩ ⟨-1, 0, 0⟩ ⟨0, -1, 0⟩ from rfl]
  norm_num [triOf, TriangleProjector.project, Mat3.invRaw, Mat3.det, triPremul,
    Mat3.fromCols, Vec3.sub, Vec3.cross, Vec3.dot]

theorem std_f3_top (pf : (1 - (1 : Fin 2).val) * 4 + (3 : Fin 4).val < 8) :
    (stdOct.faces ⟨(1 - (1 : Fin 2).val) * 4 + (3 : Fin 4).val, pf⟩).project ⟨0, 0, 2⟩ =
      ⟨5/3, -1/3, -1/3⟩ := by
  rw [show stdOct.faces ⟨(1 - (1 : Fin 2).val) * 4 + (3 : Fin 4).val, pf⟩ =
    triOf ⟨0, 0, 1⟩ ⟨0, -1, 0⟩ ⟨1, 0, 0⟩ from rfl]
  norm_num [triOf, TriangleProjector.project, Mat3.invRaw, Mat3.det, triPremul,
    Mat3.fromCols, Vec3.sub, Vec3.cross, Vec3.dot]

theorem std_pc1_0 (flags : Fin 12 → Bool) :
    poleCheck stdOct ⟨0, 0, 2⟩ 0 1 ⟨3/2, -1/2, 0, 0⟩ flags =
      .ok (markSet (markSet flags 1) 0) := by
  unfold poleCheck
  rw [if_pos (show BVec4.get ⟨3/2, -1/2, 0, 0⟩ ⟨(1 : Fin 2).val, by omega⟩ ≤ 0 from
    by norm_num [BVec4.get])]
  dsimp only
  rw [std_f0_top]
  rw [if_neg (show ¬(min3 ⟨5/3, -1/3, -1/3⟩ ≥ 0) from by norm_num [min3])]
  rw [if_neg (show ¬((⟨5/3, -1/3, -1/3⟩ : BVec3).c0 ≤ 0) from by norm_num)]
  rw [if_pos (show (⟨5/3, -1/3, -1/3⟩ : BVec3).c1 ≤ 0 from by norm_num)]
  rw [if_pos (show (⟨5/3, -1/3, -1/3⟩ : BVec3).c2 ≤ 0 from by norm_num)]
  rfl

theorem std_pc1_1 (flags : Fin 12 → Bool) :
    poleCheck stdOct ⟨0, 0, 2⟩ 1 1 ⟨3/2, -1/2, 0, 0⟩ flags =
      .ok (markSet (markSet flags 2) 1) := by
  unfold poleCheck
  rw [if_pos (show BVec4.get ⟨3/2, -1/2, 0, 0⟩ ⟨(1 : Fin 2).val, by omega⟩ ≤ 0 from
    by norm_num [BVec4.get])]
  dsimp only
  rw [std_f1_top]
  rw [if_neg (show ¬(min3 ⟨5/3, -1/3, -1/3⟩ ≥ 0) from by norm_num [min3])]
  rw [if_neg (show ¬((⟨5/3, -1/3, -1/3⟩ : BVec3).c0 ≤ 0) from by norm_num)]
  rw [if_pos (show (⟨5/3, -1/3, -1/3⟩ : BVec3).c1 ≤ 0 from by norm_num)]
  rw [if_pos (show (⟨5/3, -1/3, -1/3⟩ : BVec3).c2 ≤ 0 from by norm_num)]
  rfl

theorem std_pc1_2 (flags : Fin 12 → Bool) :
    poleCheck stdOct ⟨0, 0, 2⟩ 2 1 ⟨3/2, -1/2, 0, 0⟩ flags =
      .ok (markSet (markSet flags 3) 2) := by
  unfold poleCheck
  rw [if_pos (show BVec4.get ⟨3/2, -1/2, 0, 0⟩ ⟨(1 : Fin 2).val, by omega⟩ ≤ 0 from
    by norm_num [BVec4.get])]
  dsimp only
  rw [std_f2_top]
  rw [if_neg (show ¬(min3 ⟨5/3, -1/3, -1/3⟩ ≥ 0) from by norm_num [min3])]
  rw [if_neg (show ¬((⟨5/3, -1/3, -1/3⟩ : BVec3).c0 ≤ 0) from by norm_num)]
  rw [if_pos (show (⟨5/3, -1/3, -1/3⟩ : BVec3).c1 ≤ 0 from by norm_num)]
  rw [if_pos (show (⟨5/3, -1/3, -1/3⟩ : BVec3).c2 ≤ 0 from by norm_num)]
  rfl

theorem std_pc1_3 (flags : Fin 12 → Bool) :
    poleCheck stdOct ⟨0, 0, 2⟩ 3 1 ⟨3/2, -1/2, 0, 0⟩ flags =
      .ok (markSet (markSet flags 0) 3) := by
  unfold poleCheck
  rw [if_pos (show BVec4.get ⟨3/2, -1/2, 0, 0⟩ ⟨(1 : Fin 2).val, by omega⟩ ≤ 0 from
    by norm_num [BVec4.get])]
  dsimp only
  rw [std_f3_top]
  rw [if_neg (show ¬(min3 ⟨5/3, -1/3, -1/3⟩ ≥ 0) from by norm_num [min3])]
  rw [if_neg (show ¬((⟨5/3, -1/3, -1/3⟩ : BVec3).c0 ≤ 0) from by norm_num)]
  rw [if_pos (show (⟨5/3, -1/3, -1/3⟩ : BVec3).c1 ≤ 0 from by norm_num)]
  rw [if_pos (show (⟨5/3, -1/3, -1/3⟩ : BVec3).c2 ≤ 0 from by norm_num)]
  rfl

theorem std_wstep0_top : wedgeStep stdOct ⟨0, 0, 2⟩ 0 ⟨fun _ => false, none⟩ =
    .ok ⟨markSet (markSet (fun _ => false) 1) 0,
      some (⟨3/2, -1/2, 0, 0, 0, 0⟩, -1/2)⟩ := by
  unfold wedgeStep
  dsimp only
  rw [std_w0_top]
  rw [show min4 ⟨3/2, -1/2, 0, 0⟩ = -1/2 from by norm_num [min4]]
  rw [if_neg (show ¬((-1/2 : ℚ) ≥ 0) from by norm_num)]
  rw [std_pc0_top 0]
  dsimp only
  rw [std_pc1_0]
  rfl

theorem std_wstep1_top : wedgeStep stdOct ⟨0, 0, 2⟩ 1
    ⟨markSet (markSet (fun _ => false) 1) 0, some (⟨3/2, -1/2, 0, 0, 0, 0⟩, -1/2)⟩ =
    .ok ⟨markSet (markSet (markSet (markSet (fun _ => false) 1) 0) 2) 1,
      some (⟨3/2, -1/2, 0, 0, 0, 0⟩, -1/2)⟩ := by
  unfold wedgeStep
  dsimp only
  rw [std_w1_top]
  rw [show min4 ⟨3/2, -1/2, 0, 0⟩ = -1/2 from by norm_num [min4]]
  rw [if_neg (show ¬((-1/2 : ℚ) ≥ 0) from by norm_num)]
  rw [show (Option.map (fun b => decide (b.2 < (-1/2 : ℚ)))
      (some ((⟨3/2, -1/2, 0, 0, 0, 0⟩ : BVec6), (-1/2 : ℚ)))).getD true = false from by
    simp only [Option.map_some', Option.getD_some, decide_eq_false_iff_not]
    norm_num]
  rw [std_pc0_top 1]
  dsimp only
  rw [std_pc1_1]
  rfl

theorem std_wstep2_top : wedgeStep stdOct ⟨0, 0, 2⟩ 2
    ⟨markSet (markSet (markSet (markSet (fun _ => false) 1) 0) 2) 1,
      some (⟨3/2, -1/2, 0, 0, 0, 0⟩, -1/2)⟩ =
    .ok ⟨markSet (markSet (markSet (markSet (markSet (markSet (fun _ => false) 1) 0) 2) 1) 3) 2,
      some (⟨3/2, -1/2, 0, 0, 0, 0⟩, -1/2)⟩ := by
  unfold wedgeStep
  dsimp only
  rw [std_w2_top]
  rw [show min4 ⟨3/2, -1/2, 0, 0⟩ = -1/2 from by norm_num [min4]]
  rw [if_neg (show ¬((-1/2 : ℚ) ≥ 0) from by norm_num)]
  rw [show (Option.map (fun b => decide (b.2 < (-1/2 : ℚ)))
      (some ((⟨3/2, -1/2, 0, 0, 0, 0⟩ : BVec6), (-1/2 : ℚ)))).getD true = false from by
    simp only [Option.map_some', Option.getD_some, decide_eq_false_iff_not]
    norm_num]
  rw [std_pc0_top 2]
  dsimp only
  rw [std_pc1_2]
  rfl

theorem std_wstep3_top : wedgeStep stdOct ⟨0, 0, 2⟩ 3
    ⟨markSet (markSet (markSet (markSet (markSet (markSet (fun _ => false) 1) 0) 2) 1) 3) 2,
      some (⟨3/2, -1/2, 0, 0, 0, 0⟩, -1/2)⟩ =
    .ok ⟨markSet (markSet (markSet (markSet (markSet (markSet (markSet (markSet
        (fun _ => false) 1) 0) 2) 1) 3) 2) 0) 3,
      some (⟨3/2, -1/2, 0, 0, 0, 0⟩, -1/2)⟩ := by
  unfold wedgeStep
  dsimp only
  rw [std_w3_top]
  rw [show min4 ⟨3/2, -1/2, 0, 0⟩ = -1/2 from by norm_num [min4]]
  rw [if_neg (show ¬((-1/2 : ℚ) ≥ 0) from by norm_num)]
  rw [show (Option.map (fun b => decide (b.2 < (-1/2 : ℚ)))
      (some ((⟨3/2, -1/2, 0, 0, 0, 0⟩ : BVec6), (-1/2 : ℚ)))).getD true = false from by
    simp only [Option.map_some', Option.getD_some, decide_eq_false_iff_not]
    norm_num]
  rw [std_pc0_top 3]
  dsimp only
  rw [std_pc1_3]
  rfl

theorem std_e0_clip : ((stdOct.edges 0).clipping_project ⟨0, 0, 2⟩).1 = ⟨1, 0⟩ := by
  rw [show stdOct.edges 0 = LineProjector.new ⟨0, 0, 1⟩ ⟨1, 0, 0⟩ from rfl]
  norm_num [LineProjector.new, LineProjector.project, LineProjector.clipping_project,
    Vec3.sub, Vec3.dot]

theorem std_e1_clip : ((stdOct.edges 1).clipping_project ⟨0, 0, 2⟩).1 = ⟨1, 0⟩ := by
  rw [show stdOct.edges 1 = LineProjector.new ⟨0, 0, 1⟩ ⟨0, 1, 0⟩ from rfl]
  norm_num [LineProjector.new, LineProjector.project, LineProjector.clipping_project,
    Vec3.sub, Vec3.dot]

theorem std_e2_clip : ((stdOct.edges 2).clipping_project ⟨0, 0, 2⟩).1 = ⟨1, 0⟩ := by
  rw [show stdOct.edges 2 = LineProjector.new ⟨0, 0, 1⟩ ⟨-1, 0, 0⟩ from rfl]
  norm_num [LineProjector.new, LineProjector.project, LineProjector.clipping_project,
    Vec3.sub, Vec3.dot]

theorem std_e3_clip : ((stdOct.edges 3).clipping_project ⟨0, 0, 2⟩).1 = ⟨1, 0⟩ := by
  rw [show stdOct.edges 3 = LineProjector.new ⟨0, 0, 1⟩ ⟨0, -1, 0⟩ from rfl]
  norm_num [LineProjector.new, LineProjector.project, LineProjector.clipping_project,
    Vec3.sub, Vec3.dot]

theorem std_e0_dist :
    Vec3.normSq (Vec3.sub ((stdOct.edges 0).bary_to_point ⟨1, 0⟩) ⟨0, 0, 2⟩) = 1 := by
  rw [show stdOct.edges 0 = LineProjector.new ⟨0, 0, 1⟩ ⟨1, 0, 0⟩ from rfl]
  norm_num [LineProjector.new, LineProjector.bary_to_point, Vec3.sub, Vec3.add,
    Vec3.smul, Vec3.dot, Vec3.normSq]

theorem std_e1_dist :
    Vec3.normSq (Vec3.sub ((stdOct.edges 1).bary_to_point ⟨1, 0⟩) ⟨0, 0, 2⟩) = 1 := by
  rw [show stdOct.edges 1 = LineProjector.new ⟨0, 0, 1⟩ ⟨0, 1, 0⟩ from rfl]
  norm_num [LineProjector.new, LineProjector.bary_to_point, Vec3.sub, Vec3.add,
    Vec3.smul, Vec3.dot, Vec3.normSq]

theorem std_e2_dist :
    Vec3.normSq (Vec3.sub ((stdOct.edges 2).bary_to_point ⟨1, 0⟩) ⟨0, 0, 2⟩) = 1 := by
  rw [show stdOct.edges 2 = LineProjector.new ⟨0, 0, 1⟩ ⟨-1, 0, 0⟩ from rfl]
  norm_num [LineProjector.new, LineProjector.bary_to_point, Vec3.sub, Vec3.add,
    Vec3.smul, Vec3.dot, Vec3.normSq]

theorem std_e3_dist :
    Vec3.normSq (Vec3.sub ((stdOct.edges 3).bary_to_point ⟨1, 0⟩) ⟨0, 0, 2⟩) = 1 := by
  rw [show stdOct.edges 3 = LineProjector.new ⟨0, 0, 1⟩ ⟨0, -1, 0⟩ from rfl]
  norm_num [LineProjector.new, LineProjector.bary_to_point, Vec3.sub, Vec3.add,
    Vec3.smul, Vec3.dot, Vec3.normSq]

def stdTopFlags : Fin 12 → Bool :=
  markSet (markSet (markSet (markSet (markSet (markSet (markSet (markSet
    (fun _ => false) 1) 0) 2) 1) 3) 2) 0) 3

theorem edgeLoop_skip (o : OctahedronProjector) (pt : Vec3) (flags : Fin 12 → Bool)
    (j : Fin 12) (rest : List (Fin 12)) (best : Option (BVec6 × ℚ))
    (h : flags j = false) :
    edgeLoop o pt flags (j :: rest) best = edgeLoop o pt flags rest best := by
  conv_lhs => unfold edgeLoop
  simp only [h]
  simp

theorem edgeLoop_take (o : OctahedronProjector) (pt : Vec3) (flags : Fin 12 → Bool)
    (j : Fin 12) (rest : List (Fin 12)) (best : Option (BVec6 × ℚ))
    (lb : BVec2) (d : ℚ) (g : BVec6)
    (h : flags j = true)
    (hlb : ((o.edges j).clipping_project pt).1 = lb)
    (hd : Vec3.normSq (Vec3.sub ((o.edges j).bary_to_point lb) pt) = d)
    (hg : edgeLocalToGlobal j lb = g)
    (hcmp : (best.map fun b => decide (b.2 > d)).getD true = true) :
    edgeLoop o pt flags (j :: rest) best = edgeLoop o pt flags rest (some (g, d)) := by
  conv_lhs => unfold edgeLoop
  simp only [h, hlb, hd, hg, hcmp]
  simp

theorem edgeLoop_keep (o : OctahedronProjector) (pt : Vec3) (flags : Fin 12 → Bool)
    (j : Fin 12) (rest : List (Fin 12)) (best : Option (BVec6 × ℚ))
    (lb : BVec2) (d : ℚ)
    (h : flags j = true)
    (hlb : ((o.edges j).clipping_project pt).1 = lb)
    (hd : Vec3.normSq (Vec3.sub ((o.edges j).bary_to_point lb) pt) = d)
    (hcmp : (best.map fun b => decide (b.2 > d)).getD true = false) :
    edgeLoop o pt flags (j :: rest) best = edgeLoop o pt flags rest best := by
  conv_lhs => unfold edgeLoop
  simp only [h, hlb, hd, hcmp]
  simp

theorem std_loop_top : edgeLoop stdOct ⟨0, 0, 2⟩ stdTopFlags
    [0, 1, 2, 3, 4, 5, 6, 7, 8, 9, 10, 11] none = some (⟨1, 0, 0, 0, 0, 0⟩, 1) := by
  rw [edgeLoop_take stdOct ⟨0, 0, 2⟩ stdTopFlags 0 _ none ⟨1, 0⟩ 1 ⟨1, 0, 0, 0, 0, 0⟩
    rfl std_e0_clip std_e0_dist rfl rfl]
  rw [edgeLoop_keep stdOct ⟨0, 0, 2⟩ stdTopFlags 1 _ (some (⟨1, 0, 0, 0, 0, 0⟩, 1)) ⟨1, 0⟩ 1
    rfl std_e1_clip std_e1_dist (by
      simp only [Option.map_some', Option.getD_some, decide_eq_false_iff_not]
      norm_num)]
  rw [edgeLoop_keep stdOct ⟨0, 0, 2⟩ stdTopFlags 2 _ (some (⟨1, 0, 0, 0, 0, 0⟩, 1)) ⟨1, 0⟩ 1
    rfl std_e2_clip std_e2_dist (by
      simp only [Option.map_some', Option.getD_some, decide_eq_false_iff_not]
      norm_num)]
  rw [edgeLoop_keep stdOct ⟨0, 0, 2⟩ stdTopFlags 3 _ (some (⟨1, 0, 0, 0, 0, 0⟩, 1)) ⟨1, 0⟩ 1
    rfl std_e3_clip std_e3_dist (by
      simp only [Option.map_some', Option.getD_some, decide_eq_false_iff_not]
      norm_num)]
  rw [edgeLoop_skip stdOct ⟨0, 0, 2⟩ stdTopFlags 4 _ _ rfl]
  rw [edgeLoop_skip stdOct ⟨0, 0, 2⟩ stdTopFlags 5 _ _ rfl]
  rw [edgeLoop_skip stdOct ⟨0, 0, 2⟩ stdTopFlags 6 _ _ rfl]
  rw [edgeLoop_skip stdOct ⟨0, 0, 2⟩ stdTopFlags 7 _ _ rfl]
  rw [edgeLoop_skip stdOct ⟨0, 0, 2⟩ stdTopFlags 8 _ _ rfl]
  rw [edgeLoop_skip stdOct ⟨0, 0, 2⟩ stdTopFlags 9 _ _ rfl]
  rw [edgeLoop_skip stdOct ⟨0, 0, 2⟩ stdTopFlags 10 _ _ rfl]
  rw [edgeLoop_skip stdOct ⟨0, 0, 2⟩ stdTopFlags 11 _ _ rfl]
  rfl

theorem std_project_top : stdOct.project ⟨0, 0, 2⟩ = some ⟨1, 0, 0, 0, 0, 0⟩ := by
  unfold OctahedronProjector.project
  dsimp only
  rw [std_wstep0_top]
  dsimp only
  rw [std_wstep1_top]
  dsimp only
  rw [std_wstep2_top]
  dsimp only
  rw [std_wstep3_top]
  dsimp only
  rw [show (markSet (markSet (markSet (markSet (markSet (markSet (markSet (markSet
      (fun _ => false) 1) 0) 2) 1) 3) 2) 0) 3 : Fin 12 → Bool) = stdTopFlags from rfl]
  rw [show ((List.finRange 12).all fun j => ! stdTopFlags j) = false from rfl]
  rw [if_neg Bool.false_ne_true]
  rw [show (List.finRange 12 : List (Fin 12)) = [0, 1, 2, 3, 4, 5, 6, 7, 8, 9, 10, 11] from rfl]
  rw [std_loop_top]
  rfl

/-- C3: for the octahedron built from poles (0,0,1), (0,0,-1) and equatorial
vertices (1,0,0), (0,1,0), (-1,0,0), (0,-1,0), construction succeeds, the
query (0,0,2) returns the one-hot vector [1,0,0,0,0,0] on pole 0, and the
edge-midpoint query (1/2,1/2,0) returns [0,0,1/2,1/2,0,0], placing weight
1/2 on each of the two adjacent equatorial vertices and 0 elsewhere. -/
theorem claim_C3_standard_octahedron_scenarios :
    OctahedronProjector.new? stdVerts = some stdOct ∧
      stdOct.project ⟨0, 0, 2⟩ = some ⟨1, 0, 0, 0, 0, 0⟩ ∧
      stdOct.project ⟨1/2, 1/2, 0⟩ = some ⟨0, 0, 1/2, 1/2, 0, 0⟩ :=
  ⟨stdOct_new, std_project_top, std_project_mid⟩

/-- C8 (amended): for every successfully constructed OctahedronProjector,
project applied to construction vertices 0 to 3 (the two poles and the
first two equatorial vertices, all vertices of wedge 0) returns the
corresponding one-hot vector; for the equatorial vertices 4 and 5 the claim
fails on a skewed octahedron (see the counterexample), where a clean-face
early return yields a non-one-hot answer. -/
theorem claim_C8_vertices_one_hot_amended (v : Fin 6 → Vec3) (o : OctahedronProjector)
    (h : OctahedronProjector.new? v = some o) :
    o.project (v 0) = some ⟨1, 0, 0, 0, 0, 0⟩ ∧
      o.project (v 1) = some ⟨0, 1, 0, 0, 0, 0⟩ ∧
      o.project (v 2) = some ⟨0, 0, 1, 0, 0, 0⟩ ∧
      o.project (v 3) = some ⟨0, 0, 0, 1, 0, 0⟩ :=
  oct_first_four_vertices_one_hot v o h

theorem claim_C8_witness :
    stdOct.project (stdVerts 0) = some ⟨1, 0, 0, 0, 0, 0⟩ ∧
      stdOct.project (stdVerts 1) = some ⟨0, 1, 0, 0, 0, 0⟩ ∧
      stdOct.project (stdVerts 2) = some ⟨0, 0, 1, 0, 0, 0⟩ ∧
      stdOct.project (stdVerts 3) = some ⟨0, 0, 0, 1, 0, 0⟩ :=
  claim_C8_vertices_one_hot_amended stdVerts stdOct stdOct_new

theorem claim_C1_witness : projectOutputOK stdOct ⟨2, 2, 2⟩ :=
  claim_C1_octahedron_project_invariant stdVerts stdOct ⟨2, 2, 2⟩ stdOct_new

/-- The clipping triangle projector of the unit triangle (0,0,0), (1,0,0),
(0,1,0), as ClippingTriangleProjector::new builds it. -/
def ctpUnit : ClippingTriangleProjector :=
  { vertices := Mat3.fromCols ⟨0, 0, 0⟩ ⟨1, 0, 0⟩ ⟨0, 1, 0⟩
    line0 := LineProjector.new ⟨1, 0, 0⟩ ⟨0, 1, 0⟩
    line1 := LineProjector.new ⟨0, 1, 0⟩ ⟨0, 0, 0⟩
    line2 := LineProjector.new ⟨0, 0, 0⟩ ⟨1, 0, 0⟩
    normal_project := triOf ⟨0, 0, 0⟩ ⟨1, 0, 0⟩ ⟨0, 1, 0⟩ }

theorem claim_C7_witness :
    ctpUnit.clipping_project ⟨-1, 1/2, 0⟩ =
      (candAt 1 ((ctpUnit.line 1).clipping_project ⟨-1, 1/2, 0⟩).1, true, none) :=
  claim_C7_clean_edge_early_return ctpUnit ⟨-1, 1/2, 0⟩ 1
    (by
      rw [show ctpUnit.project ⟨-1, 1/2, 0⟩ = ⟨3/2, -1, 1/2⟩ from by
        norm_num [ctpUnit, ClippingTriangleProjector.project, triOf, triPremul,
          TriangleProjector.project, Mat3.invRaw, Mat3.det, Mat3.fromCols,
          Vec3.sub, Vec3.dot, Vec3.cross]]
      norm_num [BVec3.get])
    (by
      rw [show ctpUnit.line 1 = LineProjector.new ⟨0, 1, 0⟩ ⟨0, 0, 0⟩ from rfl]
      norm_num [LineProjector.new, LineProjector.project, LineProjector.clipping_project,
        Vec3.sub, Vec3.dot])
    (by
      intro j hj hneg
      rw [show ctpUnit.project ⟨-1, 1/2, 0⟩ = ⟨3/2, -1, 1/2⟩ from by
        norm_num [ctpUnit, ClippingTriangleProjector.project, triOf, triPremul,
          TriangleProjector.project, Mat3.invRaw, Mat3.det, Mat3.fromCols,
          Vec3.sub, Vec3.dot, Vec3.cross]] at hneg
      fin_cases j
      · norm_num [BVec3.get] at hneg
      · exact absurd hj (by decide)
      · exact absurd hj (by decide))
